import Mathlib

/-!
Shallow embedding of the networking core of the iroh-tauri-app repository
(social p2p application): content types and validation
(crates/iroh-social-types/src), the SQLite-backed local store
(src-tauri/src/storage*), the sync reconciler (src-tauri/src/sync.rs,
src-tauri/src/commands/sync.rs), the gossip bridge (src-tauri/src/gossip.rs),
the Double-Ratchet DM engine (src-tauri/src/crypto.rs, src-tauri/src/dm.rs).

Modelling conventions, used throughout and noted at each definition:
* Rust u32/u64 counters and timestamps are modelled as Nat (no computation in
  the source brings them near overflow, and no claim depends on wrap-around).
* External cryptographic primitives (SHA-2/HKDF/ChaCha20-Poly1305/X25519,
  snow, ed25519 signatures) are collaborator libraries, not code of this
  repository; they are modelled as a free term algebra carrying exactly the
  properties the source relies on: distinct derivations yield distinct keys,
  AEAD decryption succeeds exactly under the encrypting key, DH is symmetric,
  and signatures verify exactly under the signing key over the signed bytes.
* SQLite tables are modelled as lists of rows; each storage method is
  translated from its SQL statement.
* The system clock (now_millis) and the OS RNG (getrandom) are passed as
  explicit arguments / explicit counter state.
-/

set_option linter.unusedVariables false

namespace IrohSocial

/-- Media attachment record (crates/iroh-social-types/src/types.rs). -/
structure MediaAttachment where
  hash : String
  ticket : String
  mime_type : String
  filename : String
  size : Nat
deriving DecidableEq, Repr

/-- Interaction kinds (crates/iroh-social-types/src/types.rs); only Like exists. -/
inductive InteractionKind
| like
deriving DecidableEq, Repr

/-- Canonical signing payload of a post: `post_signing_bytes` in
crates/iroh-social-types/src/signing.rs serializes exactly these fields (in
this order, excluding the signature and the quote fields) as a JSON object.
The JSON encoding of this field tuple is injective, so the canonical byte
string is modelled by the field tuple itself. -/
structure CanonicalPost where
  id : String
  author : String
  content : String
  timestamp : Nat
  media : List MediaAttachment
  reply_to : Option String
  reply_to_author : Option String
deriving DecidableEq, Repr

/-- Canonical signing payload of an interaction (`interaction_signing_bytes`
in crates/iroh-social-types/src/signing.rs). -/
structure CanonicalInteraction where
  id : String
  author : String
  kind : InteractionKind
  target_post_id : String
  target_author : String
  timestamp : Nat
deriving DecidableEq, Repr

/-- Byte strings handed to the Ed25519 signer: either canonical post bytes or
canonical interaction bytes (the two JSON shapes are disjoint). -/
inductive SignBytes
| post (c : CanonicalPost)
| interaction (c : CanonicalInteraction)
deriving DecidableEq, Repr

/-- Model of an Ed25519 signature value (the hex string stored in the
`signature` field). EUF-CMA idealization of the external ed25519
implementation: a signature verifies under public key `author` over bytes
`bytes` exactly when it is `signedBy author bytes`. `junk` covers forged
values and hex strings that fail to decode. -/
inductive SigVal
| signedBy (author : String) (bytes : SignBytes)
| junk (n : Nat)
deriving DecidableEq, Repr

/-- Post record (crates/iroh-social-types/src/types.rs). -/
structure Post where
  id : String
  author : String
  content : String
  timestamp : Nat
  media : List MediaAttachment
  reply_to : Option String
  reply_to_author : Option String
  quote_of : Option String
  quote_of_author : Option String
  signature : SigVal
deriving DecidableEq, Repr

/-- Interaction record (crates/iroh-social-types/src/types.rs). -/
structure Interaction where
  id : String
  author : String
  kind : InteractionKind
  target_post_id : String
  target_author : String
  timestamp : Nat
  signature : SigVal
deriving DecidableEq, Repr

/-- Profile record (crates/iroh-social-types/src/types.rs). -/
structure Profile where
  display_name : String
  bio : String
  avatar_hash : Option String
  avatar_ticket : Option String
  is_private : Bool
deriving DecidableEq, Repr

/-- Bound constants from crates/iroh-social-types/src/validation.rs. -/
def MAX_POST_CONTENT_LEN : Nat := 10000

/-- Maximum number of media attachments per post. -/
def MAX_MEDIA_COUNT : Nat := 10

/-- Maximum allowed future clock drift for timestamps, in milliseconds. -/
def MAX_TIMESTAMP_DRIFT_MS : Nat := 5 * 60 * 1000

/-- Maximum display-name length in bytes. -/
def MAX_DISPLAY_NAME_LEN : Nat := 200

/-- Maximum bio length in bytes. -/
def MAX_BIO_LEN : Nat := 2000

/-- Translation of `validate_post` (crates/iroh-social-types/src/validation.rs
lines 53-76). Rust `String::len` is the UTF-8 byte length, modelled by
`String.utf8ByteSize`. The wall clock `now_millis()` is passed explicitly. -/
def validate_post (now : Nat) (post : Post) : Except String Unit :=
  if MAX_POST_CONTENT_LEN < post.content.utf8ByteSize then
    Except.error ("post content too long")
  else if MAX_MEDIA_COUNT < post.media.length then
    Except.error ("too many media attachments")
  else if now + MAX_TIMESTAMP_DRIFT_MS < post.timestamp then
    Except.error ("post timestamp is too far in the future")
  else Except.ok ()

/-- Translation of `validate_interaction`
(crates/iroh-social-types/src/validation.rs lines 42-51). -/
def validate_interaction (now : Nat) (i : Interaction) : Except String Unit :=
  if now + MAX_TIMESTAMP_DRIFT_MS < i.timestamp then
    Except.error ("interaction timestamp is too far in the future")
  else Except.ok ()

/-- Translation of `validate_profile`
(crates/iroh-social-types/src/validation.rs lines 24-40). -/
def validate_profile (p : Profile) : Except String Unit :=
  if MAX_DISPLAY_NAME_LEN < p.display_name.utf8ByteSize then
    Except.error ("display name too long")
  else if MAX_BIO_LEN < p.bio.utf8ByteSize then
    Except.error ("bio too long")
  else Except.ok ()

/-- Canonical bytes of a post, `post_signing_bytes` in signing.rs. -/
def post_signing_bytes (post : Post) : SignBytes :=
  SignBytes.post
    { id := post.id, author := post.author, content := post.content,
      timestamp := post.timestamp, media := post.media,
      reply_to := post.reply_to, reply_to_author := post.reply_to_author }

/-- Canonical bytes of an interaction, `interaction_signing_bytes` in signing.rs. -/
def interaction_signing_bytes (i : Interaction) : SignBytes :=
  SignBytes.interaction
    { id := i.id, author := i.author, kind := i.kind,
      target_post_id := i.target_post_id, target_author := i.target_author,
      timestamp := i.timestamp }

/-- Translation of `verify_post_signature`
(crates/iroh-social-types/src/signing.rs lines 79-89) under the signature
idealization: hex decoding, pubkey parsing and Ed25519 verification succeed
exactly when the signature value is `signedBy` the claimed author over the
canonical bytes. -/
def verify_post_signature (post : Post) : Except String Unit :=
  if post.signature = SigVal.signedBy post.author (post_signing_bytes post) then
    Except.ok ()
  else Except.error ("signature verification failed")

/-- Translation of `verify_interaction_signature`
(crates/iroh-social-types/src/signing.rs lines 92-102). -/
def verify_interaction_signature (i : Interaction) : Except String Unit :=
  if i.signature = SigVal.signedBy i.author (interaction_signing_bytes i) then
    Except.ok ()
  else Except.error ("signature verification failed")

/-- Translation of `sign_post` (crates/iroh-social-types/src/signing.rs lines
65-69): sign the canonical bytes and store the signature on the post. The
secret key is identified by the pubkey string of its holder (signing with a
key other than the author's produces a forged post). -/
def sign_post (secret_key : String) (post : Post) : Post :=
  { post with signature := SigVal.signedBy secret_key (post_signing_bytes post) }

/-- Translation of `sign_interaction` (crates/iroh-social-types/src/signing.rs
lines 72-76). -/
def sign_interaction (secret_key : String) (i : Interaction) : Interaction :=
  { i with signature := SigVal.signedBy secret_key (interaction_signing_bytes i) }

/-! ## Double-Ratchet cryptographic model (src-tauri/src/crypto.rs)

The key schedule of src-tauri/src/crypto.rs composes external primitives:
HKDF-SHA256 expansions with three distinct info strings, X25519, and
ChaCha20-Poly1305. These are modelled as a free term algebra `Bytes`:
distinct applications give distinct terms, which is exactly the
collision-freeness the Double Ratchet relies on. X25519 keypairs are
identified by the Nat index of the `getrandom` draw that produced them
(the private key is the index; the public key is `PubKey.pk` of the index),
so the DH symmetry `dh(a, pub b) = dh(b, pub a)` holds by normalizing the
two indices. -/

/-- X25519 public keys: either a generated keypair's public half or the
all-zero byte string that `skip_messages` substitutes when no remote key is
known (`unwrap_or([0u8; 32])`). -/
inductive PubKey
| pk (i : Nat)
| zero
deriving DecidableEq, Repr

/-- Symbolic byte-string terms for the ratchet key schedule.
`raw` is an opaque constant (used for test secrets), `noiseHash` is the Noise
IK handshake hash as a function of the init message and the responder's
private key, `dh`/`dhz` are X25519 shared secrets, `rkRoot`/`rkChain` are the
two 32-byte halves of `kdf_rk`'s HKDF output, and `ckChain`/`ckMsg` are the
two `kdf_ck` HKDF expansions (info strings "...ck-chain" and "...ck-msg"). -/
inductive Bytes
| raw (n : Nat)
| noiseHash (init_message : List Nat) (responder_private : Nat)
| dh (i j : Nat)
| dhz (i : Nat)
| rkRoot (root dh_output : Bytes)
| rkChain (root dh_output : Bytes)
| ckChain (chain_key : Bytes)
| ckMsg (chain_key : Bytes)
deriving DecidableEq, Repr

/-- Model of `x25519_dh` (src-tauri/src/crypto.rs lines 42-47): the shared
secret depends only on the unordered pair of keypair indices, which gives the
X25519 identity `dh(a_priv, b_pub) = dh(b_priv, a_pub)`. -/
def x25519_dh (my_private : Nat) (their_public : PubKey) : Bytes :=
  match their_public with
  | PubKey.pk j => Bytes.dh (min my_private j) (max my_private j)
  | PubKey.zero => Bytes.dhz my_private

/-- Model of `x25519_public_from_private` (src-tauri/src/crypto.rs lines 34-39). -/
def x25519_public_from_private (private_key : Nat) : PubKey :=
  PubKey.pk private_key

/-- Model of `generate_x25519_keypair` (src-tauri/src/crypto.rs lines 49-55):
the OS RNG is modelled as a counter `rng`; each draw returns the keypair with
the current index and the advanced counter. -/
def generate_x25519_keypair (rng : Nat) : (Nat × PubKey) × Nat :=
  ((rng, PubKey.pk rng), rng + 1)

/-- Maximum number of skipped message keys (src-tauri/src/crypto.rs line 131). -/
def MAX_SKIP : Nat := 100

/-- Error type of the ratchet (src-tauri/src/crypto.rs lines 138-142). -/
inductive CryptoError
| decryptionFailed
| tooManySkipped
deriving DecidableEq, Repr

/-- A cached skipped message key (src-tauri/src/crypto.rs lines 156-161). -/
structure SkippedKey where
  ratchet_public : PubKey
  message_number : Nat
  message_key : Bytes
deriving DecidableEq, Repr

/-- The ratchet header sent with each encrypted message
(src-tauri/src/crypto.rs lines 163-169). -/
structure RatchetHeader where
  dh_public : PubKey
  message_number : Nat
  previous_chain_length : Nat
deriving DecidableEq, Repr

/-- Persistent ratchet state (src-tauri/src/crypto.rs lines 171-185), plus
the explicit RNG counter `rng` standing for the entropy source that
`generate_x25519_keypair` consumes inside `init_alice` and `dh_ratchet`. -/
structure RatchetState where
  dh_self_private : Nat
  dh_self_public : PubKey
  dh_remote_public : Option PubKey
  root_key : Bytes
  chain_key_send : Option Bytes
  chain_key_recv : Option Bytes
  send_count : Nat
  recv_count : Nat
  prev_send_count : Nat
  skipped_keys : List SkippedKey
  rng : Nat
deriving DecidableEq, Repr

/-- Translation of `kdf_rk` (src-tauri/src/crypto.rs lines 189-200): the two
32-byte halves of the HKDF output become the new root key and a chain key. -/
def kdf_rk (root_key : Bytes) (dh_output : Bytes) : Bytes × Bytes :=
  (Bytes.rkRoot root_key dh_output, Bytes.rkChain root_key dh_output)

/-- Translation of `kdf_ck` (src-tauri/src/crypto.rs lines 203-212): the two
HKDF expansions of a chain key are the next chain key and a message key. -/
def kdf_ck (chain_key : Bytes) : Bytes × Bytes :=
  (Bytes.ckChain chain_key, Bytes.ckMsg chain_key)

/-- A ChaCha20-Poly1305 ciphertext under the AEAD idealization: it determines
its key term and plaintext; decryption recovers the plaintext exactly under
the encrypting key. The plaintext type is a parameter (the source fixes it to
`Vec<u8>`; DM handling instantiates it with the typed payload, identifying a
byte string with its unique serde decoding). -/
structure Ciphertext (α : Type) where
  key : Bytes
  plaintext : α
deriving DecidableEq, Repr

/-- Model of `encrypt_message` (src-tauri/src/crypto.rs lines 215-222). -/
def encrypt_message {α : Type} (key : Bytes) (plaintext : α) : Ciphertext α :=
  { key := key, plaintext := plaintext }

/-- Model of `decrypt_message` (src-tauri/src/crypto.rs lines 225-231):
AEAD authentication succeeds exactly under the encrypting key. -/
def decrypt_message {α : Type} [DecidableEq α] (key : Bytes) (c : Ciphertext α) :
    Except CryptoError α :=
  if c.key = key then Except.ok c.plaintext
  else Except.error CryptoError.decryptionFailed

/-- Translation of `RatchetState::init_alice` (src-tauri/src/crypto.rs lines
237-254); `rng` is the index of the fresh keypair drawn inside. -/
def RatchetState.init_alice (rng : Nat) (shared_secret : Bytes)
    (bob_dh_public : PubKey) : RatchetState :=
  let kp := generate_x25519_keypair rng
  let dh_self_private := kp.1.1
  let dh_self_public := kp.1.2
  let dh_output := x25519_dh dh_self_private bob_dh_public
  let rk := kdf_rk shared_secret dh_output
  { dh_self_private := dh_self_private
    dh_self_public := dh_self_public
    dh_remote_public := some bob_dh_public
    root_key := rk.1
    chain_key_send := some rk.2
    chain_key_recv := none
    send_count := 0
    recv_count := 0
    prev_send_count := 0
    skipped_keys := []
    rng := kp.2 }

/-- Translation of `RatchetState::init_bob` (src-tauri/src/crypto.rs lines
259-272); `rng` seeds the entropy counter for later `dh_ratchet` draws. -/
def RatchetState.init_bob (shared_secret : Bytes)
    (bob_dh_keypair : Nat × PubKey) (rng : Nat) : RatchetState :=
  { dh_self_private := bob_dh_keypair.1
    dh_self_public := bob_dh_keypair.2
    dh_remote_public := none
    root_key := shared_secret
    chain_key_send := none
    chain_key_recv := none
    send_count := 0
    recv_count := 0
    prev_send_count := 0
    skipped_keys := []
    rng := rng }

/-- Translation of `RatchetState::encrypt` (src-tauri/src/crypto.rs lines
275-291). The source panics (`expect`) without a sending chain key; the
panic is modelled as `none`. -/
def RatchetState.encrypt {α : Type} (st : RatchetState) (plaintext : α) :
    Option (RatchetState × RatchetHeader × Ciphertext α) :=
  match st.chain_key_send with
  | none => none
  | some chain_key =>
    let ck := kdf_ck chain_key
    let header : RatchetHeader :=
      { dh_public := st.dh_self_public
        message_number := st.send_count
        previous_chain_length := st.prev_send_count }
    let st1 := { st with chain_key_send := some ck.1, send_count := st.send_count + 1 }
    some (st1, header, encrypt_message ck.2 plaintext)

/-- Loop body of `RatchetState::skip_messages` (src-tauri/src/crypto.rs lines
347-359): derive and cache message keys while advancing the receiving chain.
The fuel argument is the number of remaining iterations
(`until - recv_count`). Keys are pushed in increasing message-number order. -/
def skip_go (pub_key : PubKey) (skipped : List SkippedKey) (recv : Nat)
    (chain_key : Bytes) : Nat → List SkippedKey × Nat × Bytes
| 0 => (skipped, recv, chain_key)
| fuel + 1 =>
  let ck := kdf_ck chain_key
  skip_go pub_key
    (skipped ++ [{ ratchet_public := pub_key, message_number := recv, message_key := ck.2 }])
    (recv + 1) ck.1 fuel

/-- Translation of `RatchetState::skip_messages` (src-tauri/src/crypto.rs
lines 342-362). -/
def RatchetState.skip_messages (st : RatchetState) (until_ : Nat) :
    Except CryptoError RatchetState :=
  if st.recv_count + MAX_SKIP < until_ then
    Except.error CryptoError.tooManySkipped
  else
    match st.chain_key_recv with
    | none => Except.ok st
    | some chain_key =>
      let out := skip_go (st.dh_remote_public.getD PubKey.zero) st.skipped_keys
        st.recv_count chain_key (until_ - st.recv_count)
      Except.ok { st with
        skipped_keys := out.1
        recv_count := out.2.1
        chain_key_recv := some out.2.2 }

/-- Translation of `RatchetState::dh_ratchet` (src-tauri/src/crypto.rs lines
365-386). -/
def RatchetState.dh_ratchet (st : RatchetState) (new_remote_public : PubKey) :
    RatchetState :=
  let st1 := { st with
    prev_send_count := st.send_count
    send_count := 0
    recv_count := 0
    dh_remote_public := some new_remote_public }
  let dh_recv := x25519_dh st1.dh_self_private new_remote_public
  let rk1 := kdf_rk st1.root_key dh_recv
  let st2 := { st1 with root_key := rk1.1, chain_key_recv := some rk1.2 }
  let kp := generate_x25519_keypair st2.rng
  let st3 := { st2 with
    dh_self_private := kp.1.1
    dh_self_public := kp.1.2
    rng := kp.2 }
  let dh_send := x25519_dh st3.dh_self_private new_remote_public
  let rk2 := kdf_rk st3.root_key dh_send
  { st3 with root_key := rk2.1, chain_key_send := some rk2.2 }

/-- Find-and-remove on the skipped-key list: `Vec::iter().position` followed
by `Vec::remove` in `try_skipped_keys` (src-tauri/src/crypto.rs lines
328-333). Returns the first matching entry and the list without it. -/
def find_remove (header : RatchetHeader) :
    List SkippedKey → Option (SkippedKey × List SkippedKey)
| [] => none
| sk :: rest =>
  if sk.ratchet_public = header.dh_public ∧ sk.message_number = header.message_number then
    some (sk, rest)
  else
    match find_remove header rest with
    | some (found, rest1) => some (found, sk :: rest1)
    | none => none

/-- Translation of `RatchetState::try_skipped_keys` (src-tauri/src/crypto.rs
lines 323-339). -/
def RatchetState.try_skipped_keys {α : Type} [DecidableEq α] (st : RatchetState)
    (header : RatchetHeader) (ciphertext : Ciphertext α) :
    Except CryptoError (Option (RatchetState × α)) :=
  match find_remove header st.skipped_keys with
  | none => Except.ok none
  | some (sk, rest) =>
    match decrypt_message sk.message_key ciphertext with
    | Except.error e => Except.error e
    | Except.ok p => Except.ok (some ({ st with skipped_keys := rest }, p))

/-- Translation of `RatchetState::decrypt` (src-tauri/src/crypto.rs lines
294-320). Errors carry no state: the caller (dm.rs) discards the in-memory
state on error, so persistence semantics are preserved. -/
def RatchetState.decrypt {α : Type} [DecidableEq α] (st : RatchetState)
    (header : RatchetHeader) (ciphertext : Ciphertext α) :
    Except CryptoError (RatchetState × α) :=
  match st.try_skipped_keys header ciphertext with
  | Except.error e => Except.error e
  | Except.ok (some res) => Except.ok res
  | Except.ok none =>
    let afterRatchet : Except CryptoError RatchetState :=
      if st.dh_remote_public ≠ some header.dh_public then
        match st.skip_messages header.previous_chain_length with
        | Except.error e => Except.error e
        | Except.ok st1 => Except.ok (st1.dh_ratchet header.dh_public)
      else Except.ok st
    match afterRatchet with
    | Except.error e => Except.error e
    | Except.ok st2 =>
      match st2.skip_messages header.message_number with
      | Except.error e => Except.error e
      | Except.ok st3 =>
        match st3.chain_key_recv with
        | none => Except.error CryptoError.decryptionFailed
        | some chain_key =>
          let ck := kdf_ck chain_key
          let st4 := { st3 with
            chain_key_recv := some ck.1
            recv_count := st3.recv_count + 1 }
          match decrypt_message ck.2 ciphertext with
          | Except.error e => Except.error e
          | Except.ok p => Except.ok (st4, p)

/-- Sequential encryption of a list of plaintexts by one ratchet state. -/
def encrypt_all {α : Type} (st : RatchetState) :
    List α → Option (List (RatchetHeader × Ciphertext α) × RatchetState)
| [] => some ([], st)
| p :: ps =>
  match st.encrypt p with
  | none => none
  | some (st1, header, c) =>
    match encrypt_all st1 ps with
    | none => none
    | some (msgs, stf) => some ((header, c) :: msgs, stf)

/-- Sequential decryption of a list of (header, ciphertext) pairs by one
ratchet state; fails if any single decryption fails. -/
def decrypt_all {α : Type} [DecidableEq α] (st : RatchetState) :
    List (RatchetHeader × Ciphertext α) → Except CryptoError (List α × RatchetState)
| [] => Except.ok ([], st)
| (header, c) :: rest =>
  match st.decrypt header c with
  | Except.error e => Except.error e
  | Except.ok (st1, p) =>
    match decrypt_all st1 rest with
    | Except.error e => Except.error e
    | Except.ok (ps, stf) => Except.ok (p :: ps, stf)

/-! ## DM wire and payload types (crates/iroh-social-types/src/dm.rs) -/

/-- Direct message payload body (crates/iroh-social-types/src/dm.rs). -/
structure DirectMessage where
  id : String
  content : String
  timestamp : Nat
  media : List MediaAttachment
  reply_to : Option String
deriving DecidableEq, Repr

/-- Decrypted DM payload kinds (crates/iroh-social-types/src/dm.rs). -/
inductive DmPayload
| message (msg : DirectMessage)
| typing
| read (message_id : String)
| delivered (message_id : String)
deriving DecidableEq, Repr

/-- Encrypted DM envelope (crates/iroh-social-types/src/dm.rs). The wire
header `RatchetHeaderWire` hex-encodes the DH public key; hex
encoding/decoding round-trips (dm.rs lines 522-540), so the wire header is
modelled by the structured `RatchetHeader` itself. The ciphertext's plaintext
is the serde-JSON encoding of a `DmPayload`; the encoding is injective, so
the plaintext is modelled by the payload value. -/
structure EncryptedEnvelope where
  sender : String
  ratchet_header : RatchetHeader
  ciphertext : Ciphertext DmPayload
deriving DecidableEq, Repr

/-- Conversation id: the source (storage/messaging.rs lines 8-17) is the
SHA-256 hex of `"iroh-social-dm-v1:" ++ sorted(a, b)`. The hash of the
sorted pair is injective in the pair, so it is modelled by the sorted pair
itself (Rust's byte-lexicographic `sort` modelled by `String` order). -/
structure ConvId where
  lo : String
  hi : String
deriving DecidableEq, Repr

/-- Translation of `Storage::conversation_id` (storage/messaging.rs lines 8-17). -/
def conversation_id (pubkey_a pubkey_b : String) : ConvId :=
  if pubkey_a ≤ pubkey_b then { lo := pubkey_a, hi := pubkey_b }
  else { lo := pubkey_b, hi := pubkey_a }

/-- Stored DM row (crates/iroh-social-types/src/dm.rs `StoredMessage`). -/
structure StoredMessage where
  id : String
  conversation_id : ConvId
  from_pubkey : String
  to_pubkey : String
  content : String
  timestamp : Nat
  media : List MediaAttachment
  read : Bool
  delivered : Bool
  reply_to : Option String
deriving DecidableEq, Repr

/-- Row of the `dm_conversations` table (storage/messaging.rs). -/
structure ConvRow where
  conversation_id : ConvId
  peer_pubkey : String
  last_message_at : Nat
  last_message_preview : String
  created_at : Nat
  unread_count : Nat
deriving DecidableEq, Repr

/-- Row of the `dm_outbox` table (storage/messaging.rs lines 188-209); the
`envelope_json` column stores the serde-JSON of the envelope, modelled by the
envelope value. -/
structure OutboxRow where
  id : String
  peer_pubkey : String
  envelope : EncryptedEnvelope
  created_at : Nat
  message_id : String
deriving DecidableEq, Repr

/-- Row of the `notifications` table (storage/notifications.rs). The SQLite
primary key is the SHA-256 of `(kind, actor, target_post_id.unwrap_or(""),
post_id.unwrap_or(""))`; the hash is injective in that 4-tuple, so the
dedup key is modelled by the collapsed 4-tuple (`notification_key`). -/
structure NotificationRow where
  kind : String
  actor : String
  target_post_id : Option String
  post_id : Option String
  timestamp : Nat
  read : Bool
deriving DecidableEq, Repr

/-- The dedup key derived in `insert_notification`
(storage/notifications.rs lines 16-21). -/
def notification_key (n : NotificationRow) : String × String × String × String :=
  (n.kind, n.actor, n.target_post_id.getD (""), n.post_id.getD (""))

/-- Row of the monolithic storage's `remote_profiles` table
(src-tauri/src/storage.rs lines 649-665): exactly the four columns the
upsert writes (no `is_private`). -/
structure RemoteProfileRow where
  display_name : String
  bio : String
  avatar_hash : Option String
  avatar_ticket : Option String
deriving DecidableEq, Repr

/-! ## The local store (src-tauri/src/storage*)

Each SQLite table appears as a list of rows in insertion order; each storage
method is translated from its SQL statement. -/

/-- The local SQLite store, restricted to the tables the verified components
touch. -/
structure Store where
  posts : List Post
  interactions : List Interaction
  profiles : List (String × Profile)
  remote_profiles : List (String × RemoteProfileRow)
  mutes : List String
  blocks : List String
  notifications : List NotificationRow
  dm_conversations : List ConvRow
  dm_messages : List StoredMessage
  dm_outbox : List OutboxRow
  dm_ratchet_sessions : List (String × RatchetState)
deriving DecidableEq, Repr

/-- The empty store (fresh database). -/
def Store.empty : Store :=
  { posts := [], interactions := [], profiles := [], remote_profiles := []
    mutes := [], blocks := [], notifications := [], dm_conversations := []
    dm_messages := [], dm_outbox := [], dm_ratchet_sessions := [] }

/-- Association-list lookup keyed by a string primary key. -/
def lookupAssoc {α : Type} (l : List (String × α)) (k : String) : Option α :=
  match l.find? (fun kv => kv.1 = k) with
  | some kv => some kv.2
  | none => none

/-- Association-list upsert (SQL `INSERT ... ON CONFLICT(key) DO UPDATE`). -/
def upsertAssoc {α : Type} (l : List (String × α)) (k : String) (v : α) :
    List (String × α) :=
  if l.any (fun kv => kv.1 = k) then
    l.map (fun kv => if kv.1 = k then (kv.1, v) else kv)
  else l ++ [(k, v)]

/-- Translation of `Storage::insert_post` (storage/posts.rs lines 24-44):
`INSERT OR IGNORE` keyed on the `id` primary key. -/
def Store.insert_post (s : Store) (post : Post) : Store :=
  if s.posts.any (fun q => q.id = post.id) then s
  else { s with posts := s.posts ++ [post] }

/-- Translation of `Storage::get_post_by_id` (storage/posts.rs lines 46-55):
first row with the given id. -/
def Store.get_post_by_id (s : Store) (id : String) : Option Post :=
  s.posts.find? (fun p => p.id = id)

/-- Translation of `Storage::delete_post` (storage/posts.rs lines 88-96):
delete notifications referencing the post, then the post row itself. -/
def Store.delete_post (s : Store) (id : String) : Store :=
  { s with
    notifications := s.notifications.filter
      (fun n => ¬(n.post_id = some id ∨ n.target_post_id = some id))
    posts := s.posts.filter (fun p => ¬p.id = id) }

/-- Translation of `Storage::count_posts_by_author` (storage/posts.rs lines
175-183): `SELECT COUNT(*) FROM posts WHERE author=?1`. -/
def Store.count_posts_by_author (s : Store) (author : String) : Nat :=
  (s.posts.filter (fun p => p.author = author)).length

/-- Translation of `Storage::newest_post_timestamp` (storage/posts.rs lines
185-193): `MAX(timestamp)` over the author's posts, `0` when there are none. -/
def Store.newest_post_timestamp (s : Store) (author : String) : Nat :=
  ((s.posts.filter (fun p => p.author = author)).map Post.timestamp).foldr max 0

/-- Translation of `Storage::count_posts_after` (storage/posts.rs lines
195-203): posts of the author with `timestamp > after_ts`. -/
def Store.count_posts_after (s : Store) (author : String) (after_ts : Nat) : Nat :=
  (s.posts.filter (fun p => p.author = author ∧ after_ts < p.timestamp)).length

/-- Translation of `Storage::save_interaction` (storage/interactions.rs lines
24-43): `INSERT OR IGNORE` keyed on the `id` primary key. -/
def Store.save_interaction (s : Store) (i : Interaction) : Store :=
  if s.interactions.any (fun q => q.id = i.id) then s
  else { s with interactions := s.interactions ++ [i] }

/-- Translation of `Storage::delete_interaction` (storage/interactions.rs
lines 45-52): `DELETE ... WHERE id=?1 AND author=?2`. -/
def Store.delete_interaction (s : Store) (id author : String) : Store :=
  { s with interactions :=
      s.interactions.filter (fun q => ¬(q.id = id ∧ q.author = author)) }

/-- Translation of `Storage::count_interactions_by_author`
(storage/interactions.rs lines 153-161). -/
def Store.count_interactions_by_author (s : Store) (author : String) : Nat :=
  (s.interactions.filter (fun i => i.author = author)).length

/-- Translation of `Storage::newest_interaction_timestamp`
(storage/interactions.rs lines 163-171). -/
def Store.newest_interaction_timestamp (s : Store) (author : String) : Nat :=
  ((s.interactions.filter (fun i => i.author = author)).map
    Interaction.timestamp).foldr max 0

/-- Translation of `Storage::count_interactions_after`
(storage/interactions.rs lines 173-181). -/
def Store.count_interactions_after (s : Store) (author : String) (after_ts : Nat) : Nat :=
  (s.interactions.filter (fun i => i.author = author ∧ after_ts < i.timestamp)).length

/-- Translation of `Storage::save_profile` (storage/profiles.rs lines 7-16):
upsert keyed by pubkey. -/
def Store.save_profile (s : Store) (pubkey : String) (profile : Profile) : Store :=
  { s with profiles := upsertAssoc s.profiles pubkey profile }

/-- Translation of `Storage::save_remote_profile` (src-tauri/src/storage.rs
lines 649-665): upsert of the four profile columns keyed by pubkey. -/
def Store.save_remote_profile (s : Store) (pubkey : String) (profile : Profile) : Store :=
  let row : RemoteProfileRow :=
    { display_name := profile.display_name, bio := profile.bio,
      avatar_hash := profile.avatar_hash, avatar_ticket := profile.avatar_ticket }
  { s with remote_profiles := upsertAssoc s.remote_profiles pubkey row }

/-- Translation of `Storage::is_muted` (storage/moderation.rs lines 58-66). -/
def Store.is_muted (s : Store) (pubkey : String) : Bool :=
  s.mutes.contains pubkey

/-- Translation of `Storage::is_blocked` (storage/moderation.rs lines 98-106). -/
def Store.is_blocked (s : Store) (pubkey : String) : Bool :=
  s.blocks.contains pubkey

/-- Translation of `Storage::is_hidden` (storage/moderation.rs lines 119-130).
The SQL is a compound `SELECT COUNT(*)>0 FROM mutes ... UNION ALL SELECT
COUNT(*)>0 FROM blocks ... LIMIT 1` read with `query_row`, which takes the
first returned row; SQLite returns the left SELECT's row first, so the value
read is the mutes test (the blocks row is never reached). -/
def Store.is_hidden (s : Store) (pubkey : String) : Bool :=
  s.mutes.contains pubkey

/-- Translation of `Storage::insert_notification` (storage/notifications.rs
lines 7-28): `INSERT OR IGNORE` keyed on the SHA-256 of the collapsed
4-tuple, modelled by `notification_key`. -/
def Store.insert_notification (s : Store) (kind actor : String)
    (target_post_id post_id : Option String) (timestamp : Nat) : Store :=
  let row : NotificationRow :=
    { kind := kind, actor := actor, target_post_id := target_post_id,
      post_id := post_id, timestamp := timestamp, read := false }
  if s.notifications.any (fun n => notification_key n = notification_key row) then s
  else { s with notifications := s.notifications ++ [row] }

/-- Translation of `Storage::upsert_conversation` (storage/messaging.rs lines
19-35): on conflict update `last_message_at` and the preview, otherwise
insert with `created_at = last_message_at` and default unread count 0. -/
def Store.upsert_conversation (s : Store) (peer_pubkey my_pubkey : String)
    (last_message_at : Nat) (preview : String) : Store :=
  let cid := conversation_id my_pubkey peer_pubkey
  if s.dm_conversations.any (fun c => c.conversation_id = cid) then
    { s with dm_conversations := s.dm_conversations.map (fun c =>
        if c.conversation_id = cid then
          { c with last_message_at := last_message_at, last_message_preview := preview }
        else c) }
  else
    { s with dm_conversations := s.dm_conversations ++
        [{ conversation_id := cid, peer_pubkey := peer_pubkey,
           last_message_at := last_message_at, last_message_preview := preview,
           created_at := last_message_at, unread_count := 0 }] }

/-- Translation of `Storage::increment_unread` (storage/messaging.rs lines
56-63). -/
def Store.increment_unread (s : Store) (cid : ConvId) : Store :=
  { s with dm_conversations := s.dm_conversations.map (fun c =>
      if c.conversation_id = cid then { c with unread_count := c.unread_count + 1 }
      else c) }

/-- Translation of `Storage::insert_dm_message` (storage/messaging.rs lines
79-99): `INSERT OR IGNORE` keyed on the message id. -/
def Store.insert_dm_message (s : Store) (msg : StoredMessage) : Store :=
  if s.dm_messages.any (fun m => m.id = msg.id) then s
  else { s with dm_messages := s.dm_messages ++ [msg] }

/-- Translation of `Storage::mark_dm_delivered` (storage/messaging.rs lines
154-161). -/
def Store.mark_dm_delivered (s : Store) (message_id : String) : Store :=
  { s with dm_messages := s.dm_messages.map (fun m =>
      if m.id = message_id then { m with delivered := true } else m) }

/-- Translation of `Storage::mark_dm_read_by_id` (storage/messaging.rs lines
163-170). -/
def Store.mark_dm_read_by_id (s : Store) (message_id : String) : Store :=
  { s with dm_messages := s.dm_messages.map (fun m =>
      if m.id = message_id then { m with read := true } else m) }

/-- Translation of `Storage::insert_outbox_message` (storage/messaging.rs
lines 188-209). -/
def Store.insert_outbox_message (s : Store) (id peer_pubkey : String)
    (envelope : EncryptedEnvelope) (created_at : Nat) (message_id : String) : Store :=
  { s with dm_outbox := s.dm_outbox ++
      [{ id := id, peer_pubkey := peer_pubkey, envelope := envelope,
         created_at := created_at, message_id := message_id }] }

/-- Translation of `Storage::remove_outbox_message` (storage/messaging.rs
lines 238-242). -/
def Store.remove_outbox_message (s : Store) (id : String) : Store :=
  { s with dm_outbox := s.dm_outbox.filter (fun e => ¬e.id = id) }

/-- Translation of `Storage::save_ratchet_session` (storage/crypto.rs lines
6-20): upsert of the serialized state keyed by peer pubkey; the JSON blob is
modelled by the state value (serde round-trips). The `updated_at` column is
not modelled (nothing reads it). -/
def Store.save_ratchet_session (s : Store) (peer_pubkey : String)
    (state : RatchetState) : Store :=
  { s with dm_ratchet_sessions := upsertAssoc s.dm_ratchet_sessions peer_pubkey state }

/-- Translation of `Storage::get_ratchet_session` (storage/crypto.rs lines
22-31). -/
def Store.get_ratchet_session (s : Store) (peer_pubkey : String) :
    Option RatchetState :=
  lookupAssoc s.dm_ratchet_sessions peer_pubkey

/-! ## Sync reconciler (src-tauri/src/sync.rs, src-tauri/src/commands/sync.rs) -/

/-- Phase-1 client summary (crates/iroh-social-types/src/protocol.rs). -/
structure SyncRequest where
  author : String
  post_count : Nat
  interaction_count : Nat
  newest_timestamp : Nat
  newest_interaction_timestamp : Nat
deriving DecidableEq, Repr

/-- Sync modes (crates/iroh-social-types/src/protocol.rs). -/
inductive SyncMode
| upToDate
| timestampCatchUp
| needIdDiff
deriving DecidableEq, Repr

/-- The `posts_after_count` computed by the sync server
(src-tauri/src/sync.rs lines 87-93): count of the author's posts newer than
the client's newest timestamp, or the full count when the client reported
timestamp 0 (no posts). -/
def posts_after_count (s : Store) (req : SyncRequest) : Nat :=
  if 0 < req.newest_timestamp then
    s.count_posts_after req.author req.newest_timestamp
  else s.count_posts_by_author req.author

/-- The `interactions_after_count` computed by the sync server
(src-tauri/src/sync.rs lines 94-100). -/
def interactions_after_count (s : Store) (req : SyncRequest) : Nat :=
  if 0 < req.newest_interaction_timestamp then
    s.count_interactions_after req.author req.newest_interaction_timestamp
  else s.count_interactions_by_author req.author

/-- The Phase-1 mode decision of `SyncHandler::accept`
(src-tauri/src/sync.rs lines 102-115). The `server_post_count -
req.post_count` u64 subtraction is guarded by `server_post_count >=
req.post_count`, matching Nat subtraction under the same guard. -/
def sync_mode (s : Store) (req : SyncRequest) : SyncMode :=
  let server_post_count := s.count_posts_by_author req.author
  let server_interaction_count := s.count_interactions_by_author req.author
  let posts_match := req.post_count = server_post_count
  let interactions_match := req.interaction_count = server_interaction_count
  if posts_match ∧ interactions_match then SyncMode.upToDate
  else if req.post_count ≤ server_post_count ∧
      server_post_count - req.post_count = posts_after_count s req then
    SyncMode.timestampCatchUp
  else SyncMode.needIdDiff

/-- The request a client builds from its own store in `sync_from_peer`
(src-tauri/src/sync.rs lines 291-302). -/
def client_sync_request (s : Store) (author : String) : SyncRequest :=
  { author := author
    post_count := s.count_posts_by_author author
    interaction_count := s.count_interactions_by_author author
    newest_timestamp := s.newest_post_timestamp author
    newest_interaction_timestamp := s.newest_interaction_timestamp author }

/-- Convenience Bool view of an `Except` success, for translating Rust
`is_ok()` / `if let Err` control flow. -/
def exceptOk {ε α : Type} (e : Except ε α) : Bool :=
  match e with
  | Except.ok _ => true
  | Except.error _ => false

/-- Per-post body of the loop in `process_sync_result`
(src-tauri/src/commands/sync.rs lines 21-68): validate, verify the
signature, insert, then generate mention/reply/quote notifications when the
post is not our own. `mentionsOf` stands for `parse_mentions`, whose mention
recognition delegates to the external iroh `PublicKey` parser; it is passed
as an explicit function. Note the loop has no check that `post.author`
equals the sync author. -/
def process_post (now : Nat) (mentionsOf : String → List String) (my_id : String)
    (acc : Store × Nat) (post : Post) : Store × Nat :=
  if ¬exceptOk (validate_post now post) then acc
  else if ¬exceptOk (verify_post_signature post) then acc
  else
    let s := acc.1.insert_post post
    let s :=
      if post.author ≠ my_id then
        let s :=
          if (mentionsOf post.content).contains my_id then
            s.insert_notification ("mention") post.author none (some post.id) post.timestamp
          else s
        let s :=
          if post.reply_to_author = some my_id then
            s.insert_notification ("reply") post.author post.reply_to (some post.id) post.timestamp
          else s
        if post.quote_of_author = some my_id then
          s.insert_notification ("quote") post.author post.quote_of (some post.id) post.timestamp
        else s
      else s
    (s, acc.2 + 1)

/-- Per-interaction body of the loop in `process_sync_result`
(src-tauri/src/commands/sync.rs lines 74-91): stored only when the author
matches the sync author and validation plus signature verification pass. -/
def process_interaction (now : Nat) (pubkey my_id : String)
    (s : Store) (i : Interaction) : Store :=
  if i.author = pubkey ∧ exceptOk (validate_interaction now i) ∧
      exceptOk (verify_interaction_signature i) then
    let s := s.save_interaction i
    if i.target_author = my_id ∧ i.author ≠ my_id then
      s.insert_notification ("like") i.author (some i.target_post_id) none i.timestamp
    else s
  else s

/-- Translation of `process_sync_result` (src-tauri/src/commands/sync.rs
lines 12-93): posts loop, optional profile save, interactions loop. Returns
the store and the number of posts stored. UI events are not modelled. -/
def process_sync_result (now : Nat) (mentionsOf : String → List String)
    (s : Store) (pubkey : String) (posts : List Post)
    (interactions : List Interaction) (profile : Option Profile)
    (my_id : String) : Store × Nat :=
  let pr := posts.foldl (process_post now mentionsOf my_id) (s, 0)
  let s1 :=
    match profile with
    | some profile => pr.1.save_profile pubkey profile
    | none => pr.1
  let s2 := interactions.foldl (process_interaction now pubkey my_id) s1
  (s2, pr.2)

/-! ## Gossip bridge receive path (src-tauri/src/gossip.rs) -/

/-- Gossip topic messages (crates/iroh-social-types/src/protocol.rs). -/
inductive GossipMessage
| newPost (post : Post)
| deletePost (id author : String)
| profileUpdate (profile : Profile)
| newInteraction (i : Interaction)
| deleteInteraction (id author : String)
deriving DecidableEq, Repr

/-- Translation of the per-message receive handler spawned by
`FeedManager::follow_user` for a followee's topic (src-tauri/src/gossip.rs
lines 218-367), for one successfully parsed message on the topic owned by
`pk`. Log statements and UI events are not modelled; every storage failure
path in the source only logs, so the store transitions are total. -/
def gossip_receive (now : Nat) (s : Store) (pk : String) (msg : GossipMessage) : Store :=
  match msg with
  | GossipMessage.newPost post =>
    if post.author = pk then
      if ¬exceptOk (validate_post now post) then s
      else if ¬exceptOk (verify_post_signature post) then s
      else if s.is_hidden pk then s
      else s.insert_post post
    else s
  | GossipMessage.deletePost id author =>
    if author = pk then
      match s.get_post_by_id id with
      | some post => if post.author = pk then s.delete_post id else s
      | none => s
    else s
  | GossipMessage.profileUpdate profile =>
    if ¬exceptOk (validate_profile profile) then s
    else s.save_remote_profile pk profile
  | GossipMessage.newInteraction i =>
    if i.author = pk then
      if ¬exceptOk (validate_interaction now i) then s
      else if ¬exceptOk (verify_interaction_signature i) then s
      else if s.is_hidden pk then s
      else s.save_interaction i
    else s
  | GossipMessage.deleteInteraction id author =>
    if author = pk then s.delete_interaction id author
    else s

/-! ## DM engine (src-tauri/src/dm.rs) -/

/-- Errors of `DmHandler::handle_encrypted_message` that the accept path
logs and swallows. -/
inductive DmError
| noSession
| decryptFailed (e : CryptoError)
deriving DecidableEq, Repr

/-- Byte-budgeted prefix of a character list, for the 77-byte preview slice. -/
def take_bytes : Nat → List Char → List Char
| _, [] => []
| budget, c :: cs =>
  if c.utf8Size ≤ budget then c :: take_bytes (budget - c.utf8Size) cs else []

/-- The preview string built in `handle_encrypted_message`
(src-tauri/src/dm.rs lines 398-402): contents over 80 bytes are truncated to
the first 77 bytes plus "...". (The Rust byte slice panics when byte 77 is
not a char boundary; the model truncates at the boundary instead — the
difference only affects multi-byte content and no claim depends on it.) -/
def dm_preview (content : String) : String :=
  if 80 < content.utf8ByteSize then String.mk (take_bytes 77 content.data) ++ "..."
  else content

/-- Translation of `DmHandler::handle_encrypted_message`
(src-tauri/src/dm.rs lines 367-459). Returns the store as left at the point
the function returns, plus the error if it failed: on a missing session or a
failed decrypt the function returns before any write, and the updated
ratchet state is saved immediately after a successful decrypt, before the
payload is dispatched. The payload parse step (`serde_json::from_slice`)
cannot fail in the model because plaintexts are typed payloads. -/
def handle_encrypted_message (s : Store) (my_pubkey remote_pubkey : String)
    (envelope : EncryptedEnvelope) : Store × Option DmError :=
  match s.get_ratchet_session remote_pubkey with
  | none => (s, some DmError.noSession)
  | some ratchet =>
    match ratchet.decrypt envelope.ratchet_header envelope.ciphertext with
    | Except.error e => (s, some (DmError.decryptFailed e))
    | Except.ok (ratchet1, plaintext) =>
      let s := s.save_ratchet_session remote_pubkey ratchet1
      match plaintext with
      | DmPayload.message msg =>
        let cid := conversation_id my_pubkey remote_pubkey
        let preview := dm_preview msg.content
        let stored : StoredMessage :=
          { id := msg.id, conversation_id := cid, from_pubkey := remote_pubkey,
            to_pubkey := my_pubkey, content := msg.content,
            timestamp := msg.timestamp, media := msg.media, read := false,
            delivered := true, reply_to := msg.reply_to }
        let s := s.upsert_conversation remote_pubkey my_pubkey msg.timestamp preview
        let s := s.insert_dm_message stored
        let s := s.increment_unread cid
        (s, none)
      | DmPayload.delivered message_id => (s.mark_dm_delivered message_id, none)
      | DmPayload.read message_id => (s.mark_dm_read_by_id message_id, none)
      | DmPayload.typing => (s, none)

/-- The encrypt-and-persist step shared by `DmHandler::send_dm`
(src-tauri/src/dm.rs lines 150-202) and `DmHandler::send_signal` (lines
306-331), between loading an existing session and attempting the network
send: encrypt the payload with the loaded ratchet, then save the updated
ratchet state before any send is attempted. The no-session path (which runs
a network Noise handshake) and the encrypt panic are modelled as `none`. -/
def dm_encrypt_step (s : Store) (my_pubkey peer_pubkey : String)
    (payload : DmPayload) : Option (Store × EncryptedEnvelope) :=
  match s.get_ratchet_session peer_pubkey with
  | none => none
  | some ratchet =>
    match ratchet.encrypt payload with
    | none => none
    | some (ratchet1, header, ciphertext) =>
      let s := s.save_ratchet_session peer_pubkey ratchet1
      some (s, { sender := my_pubkey, ratchet_header := header, ciphertext := ciphertext })

/-- Context fields of `DmHandler` (src-tauri/src/dm.rs lines 19-28) used by
the accept path, with the RNG counter for responder-side session creation. -/
structure DmCtx where
  my_pubkey : String
  my_x25519_private : Nat
  rng : Nat
deriving DecidableEq, Repr

/-- One parsed incoming DM frame. The source tries to serde-decode the raw
bytes as a `DmHandshake`, then as an `EncryptedEnvelope`; a byte string
decodes as at most one of these shapes, modelled by this sum. -/
inductive DmFrame
| handshakeInit (noise_message : List Nat)
| handshakeResponse (noise_message : List Nat)
| envelope (e : EncryptedEnvelope)
| unknown
deriving DecidableEq, Repr

/-- What the accept path writes back on the reply stream. -/
inductive DmReply
| ack (bytes : String)
| handshakeResponseTo (init_message : List Nat)
| noReply
deriving DecidableEq, Repr

/-- Result of one `DmHandler::accept` invocation. -/
inductive DmAcceptResult
| ok (reply : DmReply)
| rejectedBlocked
deriving DecidableEq, Repr

/-- Translation of `DmHandler::handle_handshake` (src-tauri/src/dm.rs lines
334-364): run the Noise IK responder (the external snow library, modelled
symbolically: the handshake hash is `Bytes.noiseHash` of the init message
and the responder private key, and the response message is represented by
the init message it answers), initialize the Bob-side ratchet with the
responder's identity keypair, and save the session. The snow failure path
on malformed init messages is not modelled (no claim depends on it). -/
def handle_handshake (ctx : DmCtx) (s : Store) (remote_pubkey : String)
    (noise_message : List Nat) : Store :=
  let shared_secret := Bytes.noiseHash noise_message ctx.my_x25519_private
  let ratchet := RatchetState.init_bob shared_secret
    (ctx.my_x25519_private, PubKey.pk ctx.my_x25519_private) ctx.rng
  s.save_ratchet_session remote_pubkey ratchet

/-- Translation of `DmHandler::accept` (src-tauri/src/dm.rs lines 463-517):
reject blocked peers, answer a handshake init with a handshake response, and
for an envelope run `handle_encrypted_message` — logging any error — and
write the literal ACK bytes "ok" unconditionally. -/
def dm_accept (ctx : DmCtx) (s : Store) (remote_pubkey : String)
    (frame : DmFrame) : Store × DmAcceptResult :=
  if s.is_blocked remote_pubkey then (s, DmAcceptResult.rejectedBlocked)
  else
    match frame with
    | DmFrame.handshakeInit noise_message =>
      (handle_handshake ctx s remote_pubkey noise_message,
        DmAcceptResult.ok (DmReply.handshakeResponseTo noise_message))
    | DmFrame.handshakeResponse _ => (s, DmAcceptResult.ok DmReply.noReply)
    | DmFrame.envelope e =>
      let out := handle_encrypted_message s ctx.my_pubkey remote_pubkey e
      (out.1, DmAcceptResult.ok (DmReply.ack ("ok")))
    | DmFrame.unknown => (s, DmAcceptResult.ok DmReply.noReply)

/-- The ACK test of `DmHandler::try_send_envelope` (src-tauri/src/dm.rs lines
243-249): the send succeeds exactly when the peer's reply is the literal
bytes "ok". -/
def try_send_result (reply : DmReply) : Bool :=
  match reply with
  | DmReply.ack bytes => bytes = "ok"
  | _ => false

/-- One iteration of the per-entry loop of `DmHandler::flush_outbox_for_peer`
(src-tauri/src/dm.rs lines 269-294), given the reply the peer returned for
this entry's envelope: on a successful send (reply "ok") the entry is
removed from the outbox and the originating message is marked delivered;
otherwise the store is untouched (and the source stops flushing this peer).
Returns the store and whether the entry counted as sent. -/
def outbox_flush_entry (s : Store) (entry : OutboxRow) (reply : DmReply) :
    Store × Bool :=
  if try_send_result reply then
    let s := s.remove_outbox_message entry.id
    let s := s.mark_dm_delivered entry.message_id
    (s, true)
  else (s, false)

/-! ## Closed forms for the one-directional ratchet conversation

Alice (`init_alice`) encrypts a stream of plaintexts within her first
sending chain; Bob (`init_bob`, seeded with the same shared secret and his
matching identity keypair) decrypts them in some delivery order. The
following closed forms describe the messages Alice produces. -/

/-- The chain key after `i` symmetric advances from `ck0`. -/
def chain_at (ck0 : Bytes) : Nat → Bytes
| 0 => ck0
| n + 1 => Bytes.ckChain (chain_at ck0 n)

/-- The initial chain key shared by Alice's first sending chain
(`init_alice`) and Bob's first receiving chain (derived in his first
`dh_ratchet`): the `kdf_rk` chain half over the shared secret and the DH of
Alice's first ratchet key with Bob's identity key. -/
def chain_start (shared_secret : Bytes) (alice_rng bob_idx : Nat) : Bytes :=
  Bytes.rkChain shared_secret (x25519_dh alice_rng (PubKey.pk bob_idx))

/-- The (header, ciphertext) pair Alice emits for the i-th plaintext of her
first sending chain. -/
def alice_message {α : Type} (shared_secret : Bytes) (alice_rng bob_idx : Nat)
    (p : Nat → α) (i : Nat) : RatchetHeader × Ciphertext α :=
  ({ dh_public := PubKey.pk alice_rng, message_number := i, previous_chain_length := 0 },
   { key := Bytes.ckMsg (chain_at (chain_start shared_secret alice_rng bob_idx) i),
     plaintext := p i })

/-- Step function of `admissible`: `ctr` is the receiver's chain position
(one past the highest message number processed so far). Delivering message
`m` next is within the skip window when `m ≤ ctr + MAX_SKIP`. -/
def admissible_go (ctr : Nat) : List Nat → Bool
| [] => true
| m :: rest => (decide (m ≤ ctr + MAX_SKIP)) && admissible_go (max ctr (m + 1)) rest

/-- A delivery order stays within the skip window of the receiver's
evolving receive counter. In-order delivery is trivially admissible. -/
def admissible (order : List Nat) : Bool := admissible_go 0 order

/-- The receiving-chain position after processing a set of message indices:
one past the highest index processed, 0 when none. -/
def chain_pos (done : List Nat) : Nat := (done.map (fun m => m + 1)).foldr max 0

/-- The skipped-key cache contents after Bob has processed exactly the
indices `done` of Alice's first chain: one cached key for every
not-yet-delivered index below `chain_pos done`, in increasing order. -/
def skipped_cache (shared_secret : Bytes) (alice_rng bob_idx : Nat)
    (done : List Nat) : List SkippedKey :=
  ((List.range (chain_pos done)).filter (fun i => decide (i ∉ done))).map
    (fun i => { ratchet_public := PubKey.pk alice_rng, message_number := i,
                message_key := Bytes.ckMsg (chain_at (chain_start shared_secret alice_rng bob_idx) i) })

/-- Receiving-side invariant of Bob's ratchet state after processing exactly
the message indices `done` of Alice's first sending chain: the remote DH key
is Alice's first ratchet key, the receive counter and receiving chain sit at
`chain_pos done`, and the skipped-key cache holds exactly the undelivered
indices below it. The sending-side fields (self keypair, root key, sending
chain, send counters, RNG) evolve separately and are unconstrained. -/
def bob_receiving_inv (shared_secret : Bytes) (alice_rng bob_idx : Nat)
    (done : List Nat) (st : RatchetState) : Prop :=
  st.dh_remote_public = some (PubKey.pk alice_rng) ∧
  st.recv_count = chain_pos done ∧
  st.chain_key_recv
    = some (chain_at (chain_start shared_secret alice_rng bob_idx) (chain_pos done)) ∧
  st.skipped_keys = skipped_cache shared_secret alice_rng bob_idx done

/-! ## General lemmas -/

theorem utf8ByteSize_mk_sum (l : List Char) :
    (String.mk l).utf8ByteSize = (l.map Char.utf8Size).sum := by
  induction l with
  | nil => rfl
  | cons c cs ih =>
    simp [String.utf8ByteSize, String.utf8ByteSize.go] at *
    omega

theorem utf8ByteSize_replicate (n : Nat) (c : Char) :
    (String.mk (List.replicate n c)).utf8ByteSize = n * c.utf8Size := by
  rw [utf8ByteSize_mk_sum, List.map_replicate, List.sum_replicate, smul_eq_mul]

theorem upsert_preserves_key {α : Type} (k k1 : String) (v : α) :
    ((fun kv : String × α => decide (kv.1 = k1)) ∘
      fun kv => if kv.1 = k then (kv.1, v) else kv) =
    fun kv : String × α => decide (kv.1 = k1) := by
  funext kv
  by_cases hkk : kv.1 = k <;> simp [hkk]

theorem lookupAssoc_upsertAssoc {α : Type} (l : List (String × α)) (k : String) (v : α) :
    lookupAssoc (upsertAssoc l k v) k = some v := by
  unfold upsertAssoc lookupAssoc
  split_ifs with h
  · have hsome : (l.find? (fun kv => decide (kv.1 = k))).isSome := by
      rw [List.find?_isSome]
      simpa using h
    obtain ⟨kv0, hkv0⟩ := Option.isSome_iff_exists.mp hsome
    have hkey : kv0.1 = k := by simpa using List.find?_some hkv0
    rw [List.find?_map, upsert_preserves_key, hkv0]
    simp [hkey]
  · rw [List.find?_append]
    have hnone : l.find? (fun kv => decide (kv.1 = k)) = none := by
      rw [List.find?_eq_none]
      intro kv hkv
      simp only [List.any_eq_true, not_exists, not_and] at h
      simpa using h kv hkv
    rw [hnone]
    simp

theorem lookupAssoc_upsertAssoc_ne {α : Type} (l : List (String × α)) (k k1 : String)
    (v : α) (hne : k1 ≠ k) : lookupAssoc (upsertAssoc l k v) k1 = lookupAssoc l k1 := by
  unfold upsertAssoc lookupAssoc
  split_ifs with h
  · rw [List.find?_map, upsert_preserves_key]
    cases hf : l.find? (fun kv => decide (kv.1 = k1)) with
    | none => rfl
    | some kv0 =>
      have hkey : kv0.1 = k1 := by simpa using List.find?_some hf
      have hnk : ¬kv0.1 = k := by rw [hkey]; exact hne
      simp [hnk]
  · rw [List.find?_append]
    cases hf : l.find? (fun kv => decide (kv.1 = k1)) with
    | none => simp [Ne.symm hne]
    | some kv0 => simp

/-! ## Claim C8: idempotent insertion -/

/-- C8: inserting the same post or the same interaction (same unique id) a
second time leaves the store unchanged — `insert_post` and
`save_interaction` are `INSERT OR IGNORE` keyed on the unique id, so
re-receiving an item over any path is harmless. -/
theorem c8_insert_idempotent (s : Store) (post : Post) (i : Interaction) :
    (s.insert_post post).insert_post post = s.insert_post post ∧
    (s.save_interaction i).save_interaction i = s.save_interaction i := by
  constructor
  · by_cases h : s.posts.any (fun q => q.id = post.id)
    · simp [Store.insert_post, h]
    · simp [Store.insert_post, h]
  · by_cases h : s.interactions.any (fun q => q.id = i.id)
    · simp [Store.save_interaction, h]
    · simp [Store.save_interaction, h]

/-! ## Claim C9: validation bounds -/

/-- C9: `validate_post` accepts content of exactly 10,000 bytes (when the
other checks pass) and rejects 10,001 bytes; it rejects any timestamp more
than 5 minutes in the future — in particular `now + 5*60*1000 + 1` — and
accepts timestamps up to `now + 5` minutes. -/
theorem c9_validate_post_bounds (now : Nat) (post : Post) :
    (post.content.utf8ByteSize = 10000 → post.media.length ≤ 10 →
      post.timestamp ≤ now + 5 * 60 * 1000 → validate_post now post = Except.ok ()) ∧
    (post.content.utf8ByteSize = 10001 →
      validate_post now post = Except.error ("post content too long")) ∧
    (post.timestamp = now + 5 * 60 * 1000 + 1 → validate_post now post ≠ Except.ok ()) ∧
    (now + 5 * 60 * 1000 < post.timestamp → validate_post now post ≠ Except.ok ()) := by
  unfold validate_post MAX_POST_CONTENT_LEN MAX_MEDIA_COUNT MAX_TIMESTAMP_DRIFT_MS
  refine ⟨?_, ?_, ?_, ?_⟩
  · intro hc hm ht
    rw [if_neg (by omega), if_neg (by omega), if_neg (by omega)]
  · intro hc
    rw [if_pos (by omega)]
  · intro ht
    split_ifs with h1 h2 h3
    all_goals first | exact fun he => Except.noConfusion he | omega
  · intro ht
    split_ifs with h1 h2 h3
    all_goals first | exact fun he => Except.noConfusion he | omega

theorem c9_validate_post_bounds_witness :
    validate_post 1000
      { id := "p1", author := "a", content := String.mk (List.replicate 10000 'a'),
        timestamp := 1000, media := [], reply_to := none, reply_to_author := none,
        quote_of := none, quote_of_author := none, signature := SigVal.junk 0 }
      = Except.ok () ∧
    validate_post 1000
      { id := "p2", author := "a", content := String.mk (List.replicate 10001 'a'),
        timestamp := 1000, media := [], reply_to := none, reply_to_author := none,
        quote_of := none, quote_of_author := none, signature := SigVal.junk 0 }
      = Except.error ("post content too long") ∧
    validate_post 1000
      { id := "p3", author := "a", content := "hi",
        timestamp := 1000 + 5 * 60 * 1000 + 1, media := [], reply_to := none,
        reply_to_author := none, quote_of := none, quote_of_author := none,
        signature := SigVal.junk 0 } ≠ Except.ok () := by
  refine ⟨(c9_validate_post_bounds 1000 _).1 ?_ ?_ ?_,
    (c9_validate_post_bounds 1000 _).2.1 ?_,
    (c9_validate_post_bounds 1000 _).2.2.1 ?_⟩
  · rw [utf8ByteSize_replicate]
    rfl
  · decide
  · decide
  · rw [utf8ByteSize_replicate]
    rfl
  · rfl

/-! ## Claim C1: author agreement on receive paths -/

/-- C1 (failing-input evaluation): `process_sync_result` — the sync receive
path — stores a post whose author field is "bob" even though the sync was
declared for author "alice": the posts loop in
src-tauri/src/commands/sync.rs lines 21-68 validates and signature-verifies
each post against its own claimed author but never compares `post.author`
with the sync author, unlike the interactions loop directly below it (line
75) and unlike the gossip receive path (gossip.rs line 220). The post is
validly signed by its own author, so validation and signature checks pass
and the foreign-author post is inserted. -/
theorem c1_sync_stores_foreign_author_post :
    ((process_sync_result 1000 (fun _ => ([] : List String)) Store.empty ("alice")
        [sign_post ("bob")
          { id := "p1", author := "bob", content := "hi", timestamp := 500,
            media := [], reply_to := none, reply_to_author := none,
            quote_of := none, quote_of_author := none,
            signature := SigVal.junk 0 }]
        [] none ("me")).1.posts).map Post.author = ["bob"] := by
  decide

/-! ## Claim C4: moderation filtering on the gossip receive path -/

/-- C4 (counterexample): a `ProfileUpdate` received on the topic of a muted
(hence hidden) author is persisted to the store — the `ProfileUpdate` branch
of the gossip receive handler (gossip.rs lines 291-307) has no
muted/blocked check, refuting the claim that every message kind from a
muted or blocked author is dropped with nothing persisted. -/
theorem c4_muted_profile_update_persisted :
    Store.is_hidden { Store.empty with mutes := ["mallory"] } ("mallory") = true ∧
    (gossip_receive 0 { Store.empty with mutes := ["mallory"] } ("mallory")
        (GossipMessage.profileUpdate
          { display_name := "m", bio := "", avatar_hash := none,
            avatar_ticket := none, is_private := false })).remote_profiles
      = [("mallory",
          { display_name := "m", bio := "", avatar_hash := none,
            avatar_ticket := none })] := by
  decide

/-- C4 (amended): on a followee's gossip topic, the hidden-author drop
applies exactly to `NewPost` and `NewInteraction` messages: those leave the
store unchanged when the author is hidden (muted), while `ProfileUpdate`,
`DeletePost` and `DeleteInteraction` messages are processed identically
whether or not the author is muted or blocked. -/
theorem c4_moderation_scope (now : Nat) (s : Store) (pk ida idb : String)
    (post : Post) (i : Interaction) (profile : Profile)
    (hhid : s.is_hidden pk = true) :
    gossip_receive now s pk (GossipMessage.newPost post) = s ∧
    gossip_receive now s pk (GossipMessage.newInteraction i) = s ∧
    (validate_profile profile = Except.ok () →
      gossip_receive now s pk (GossipMessage.profileUpdate profile)
        = s.save_remote_profile pk profile) ∧
    (∀ post0, s.get_post_by_id ida = some post0 → post0.author = pk →
      gossip_receive now s pk (GossipMessage.deletePost ida pk)
        = s.delete_post ida) ∧
    gossip_receive now s pk (GossipMessage.deleteInteraction idb pk)
      = s.delete_interaction idb pk := by
  refine ⟨?_, ?_, ?_, ?_, ?_⟩
  · simp only [gossip_receive, hhid]
    split_ifs <;> rfl
  · simp only [gossip_receive, hhid]
    split_ifs <;> rfl
  · intro hv
    simp [gossip_receive, exceptOk, hv]
  · intro post0 hget hauth
    simp [gossip_receive, hget, hauth]
  · simp [gossip_receive]

theorem c4_moderation_scope_witness :
    gossip_receive 5 { Store.empty with mutes := ["mallory"] } ("mallory")
      (GossipMessage.newPost
        (sign_post ("mallory")
          { id := "p1", author := "mallory", content := "hi", timestamp := 0,
            media := [], reply_to := none, reply_to_author := none,
            quote_of := none, quote_of_author := none,
            signature := SigVal.junk 0 }))
      = { Store.empty with mutes := ["mallory"] } ∧
    gossip_receive 5 { Store.empty with mutes := ["mallory"] } ("mallory")
      (GossipMessage.profileUpdate
        { display_name := "m", bio := "", avatar_hash := none,
          avatar_ticket := none, is_private := false })
      = Store.save_remote_profile { Store.empty with mutes := ["mallory"] }
          ("mallory")
          { display_name := "m", bio := "", avatar_hash := none,
            avatar_ticket := none, is_private := false } := by
  have h := c4_moderation_scope 5 { Store.empty with mutes := ["mallory"] }
    ("mallory") ("i1") ("j1")
    (sign_post ("mallory")
      { id := "p1", author := "mallory", content := "hi", timestamp := 0,
        media := [], reply_to := none, reply_to_author := none,
        quote_of := none, quote_of_author := none, signature := SigVal.junk 0 })
    { id := "x", author := "mallory", kind := InteractionKind.like,
      target_post_id := "t", target_author := "a", timestamp := 0,
      signature := SigVal.junk 0 }
    { display_name := "m", bio := "", avatar_hash := none,
      avatar_ticket := none, is_private := false }
    (by decide)
  exact ⟨h.1, h.2.2.1 (by rfl)⟩

/-! ## Claim C10: unconditional ACK on the DM accept path -/

/-- C10: when an incoming DM frame decodes as an `EncryptedEnvelope` and the
remote peer is not blocked, `DmHandler::accept` writes the literal ACK bytes
"ok" regardless of whether handling succeeded — in particular, with no
ratchet session the message is dropped (store unchanged) yet the sender is
ACKed; and a sender receiving the "ok" reply for an outbox entry removes the
entry and marks the originating message delivered. -/
theorem c10_dm_ack_unconditional (ctx : DmCtx) (s sender_store : Store)
    (remote : String) (e : EncryptedEnvelope) (entry : OutboxRow)
    (hnb : s.is_blocked remote = false) :
    (dm_accept ctx s remote (DmFrame.envelope e)).2
      = DmAcceptResult.ok (DmReply.ack ("ok")) ∧
    (s.get_ratchet_session remote = none →
      dm_accept ctx s remote (DmFrame.envelope e)
        = (s, DmAcceptResult.ok (DmReply.ack ("ok")))) ∧
    outbox_flush_entry sender_store entry (DmReply.ack ("ok"))
      = ((sender_store.remove_outbox_message entry.id).mark_dm_delivered
          entry.message_id, true) := by
  refine ⟨?_, ?_, ?_⟩
  · simp [dm_accept, hnb]
  · intro hns
    simp [dm_accept, hnb, handle_encrypted_message, hns]
  · simp [outbox_flush_entry, try_send_result]

theorem c10_dm_ack_unconditional_witness :
    dm_accept { my_pubkey := "me", my_x25519_private := 1, rng := 2 }
        Store.empty ("peer")
        (DmFrame.envelope
          { sender := "peer",
            ratchet_header :=
              { dh_public := PubKey.pk 5, message_number := 0,
                previous_chain_length := 0 },
            ciphertext := { key := Bytes.raw 99, plaintext := DmPayload.typing } })
      = (Store.empty, DmAcceptResult.ok (DmReply.ack ("ok"))) ∧
    outbox_flush_entry Store.empty
        { id := "o1", peer_pubkey := "peer",
          envelope :=
            { sender := "me",
              ratchet_header :=
                { dh_public := PubKey.pk 5, message_number := 0,
                  previous_chain_length := 0 },
              ciphertext := { key := Bytes.raw 99, plaintext := DmPayload.typing } },
          created_at := 0, message_id := "m1" }
        (DmReply.ack ("ok"))
      = ((Store.empty.remove_outbox_message ("o1")).mark_dm_delivered ("m1"), true) := by
  have h := c10_dm_ack_unconditional
    { my_pubkey := "me", my_x25519_private := 1, rng := 2 }
    Store.empty Store.empty ("peer")
    { sender := "peer",
      ratchet_header :=
        { dh_public := PubKey.pk 5, message_number := 0, previous_chain_length := 0 },
      ciphertext := { key := Bytes.raw 99, plaintext := DmPayload.typing } }
    { id := "o1", peer_pubkey := "peer",
      envelope :=
        { sender := "me",
          ratchet_header :=
            { dh_public := PubKey.pk 5, message_number := 0,
              previous_chain_length := 0 },
          ciphertext := { key := Bytes.raw 99, plaintext := DmPayload.typing } },
      created_at := 0, message_id := "m1" }
    (by decide)
  exact ⟨h.2.1 (by decide), h.2.2⟩

/-! ## Claim C5: ratchet persistence discipline -/

theorem upsert_conversation_sessions (s : Store) (a b p : String) (t : Nat) :
    (s.upsert_conversation a b t p).dm_ratchet_sessions = s.dm_ratchet_sessions := by
  simp only [Store.upsert_conversation]
  split_ifs <;> rfl

theorem insert_dm_message_sessions (s : Store) (m : StoredMessage) :
    (s.insert_dm_message m).dm_ratchet_sessions = s.dm_ratchet_sessions := by
  unfold Store.insert_dm_message
  split_ifs <;> rfl

theorem increment_unread_sessions (s : Store) (c : ConvId) :
    (s.increment_unread c).dm_ratchet_sessions = s.dm_ratchet_sessions := rfl

theorem mark_dm_delivered_sessions (s : Store) (m : String) :
    (s.mark_dm_delivered m).dm_ratchet_sessions = s.dm_ratchet_sessions := rfl

theorem mark_dm_read_sessions (s : Store) (m : String) :
    (s.mark_dm_read_by_id m).dm_ratchet_sessions = s.dm_ratchet_sessions := rfl

/-- C5: the persisted ratchet session is written back only after success.
If `handle_encrypted_message` fails (missing session, or any decrypt error
— too many skipped messages or AEAD failure), the stored session for the
peer is unchanged; on a successful decrypt the stored session is exactly the
post-decrypt state; and the send path (`dm_encrypt_step`, the shared body of
`send_dm` and `send_signal`) stores exactly the post-encrypt state after
every successful encrypt. -/
theorem c5_ratchet_persistence (s : Store) (my remote peer : String)
    (e : EncryptedEnvelope) (payload : DmPayload) :
    (∀ s1 err, handle_encrypted_message s my remote e = (s1, some err) →
      s1.get_ratchet_session remote = s.get_ratchet_session remote) ∧
    (∀ s1, handle_encrypted_message s my remote e = (s1, none) →
      ∃ st st1 p, s.get_ratchet_session remote = some st ∧
        st.decrypt e.ratchet_header e.ciphertext = Except.ok (st1, p) ∧
        s1.get_ratchet_session remote = some st1) ∧
    (∀ s1 env, dm_encrypt_step s my peer payload = some (s1, env) →
      ∃ st st1 header c, s.get_ratchet_session peer = some st ∧
        st.encrypt payload = some (st1, header, c) ∧
        s1.get_ratchet_session peer = some st1) := by
  refine ⟨?_, ?_, ?_⟩
  · intro s1 err h
    unfold handle_encrypted_message at h
    cases hsess : s.get_ratchet_session remote with
    | none =>
      rw [hsess] at h
      dsimp only at h
      injection h with h1 h2
      rw [← h1, hsess]
    | some st =>
      rw [hsess] at h
      dsimp only at h
      cases hdec : st.decrypt e.ratchet_header e.ciphertext with
      | error e1 =>
        rw [hdec] at h
        dsimp only at h
        injection h with h1 h2
        rw [← h1, hsess]
      | ok out =>
        rw [hdec] at h
        obtain ⟨st1, p⟩ := out
        dsimp only at h
        cases p <;> simp_all
  · intro s1 h
    unfold handle_encrypted_message at h
    cases hsess : s.get_ratchet_session remote with
    | none =>
      rw [hsess] at h
      dsimp only at h
      exact absurd (congrArg Prod.snd h) (by simp)
    | some st =>
      rw [hsess] at h
      dsimp only at h
      cases hdec : st.decrypt e.ratchet_header e.ciphertext with
      | error e1 =>
        rw [hdec] at h
        dsimp only at h
        exact absurd (congrArg Prod.snd h) (by simp)
      | ok out =>
        rw [hdec] at h
        obtain ⟨st1, p⟩ := out
        dsimp only at h
        refine ⟨st, st1, p, rfl, hdec, ?_⟩
        cases p with
        | message msg =>
          dsimp only at h
          injection h with h1 h2
          rw [← h1]
          unfold Store.get_ratchet_session
          rw [increment_unread_sessions, insert_dm_message_sessions,
            upsert_conversation_sessions]
          unfold Store.save_ratchet_session
          exact lookupAssoc_upsertAssoc _ _ _
        | typing =>
          dsimp only at h
          injection h with h1 h2
          rw [← h1]
          unfold Store.get_ratchet_session Store.save_ratchet_session
          exact lookupAssoc_upsertAssoc _ _ _
        | read mid =>
          dsimp only at h
          injection h with h1 h2
          rw [← h1]
          unfold Store.get_ratchet_session
          rw [mark_dm_read_sessions]
          unfold Store.save_ratchet_session
          exact lookupAssoc_upsertAssoc _ _ _
        | delivered mid =>
          dsimp only at h
          injection h with h1 h2
          rw [← h1]
          unfold Store.get_ratchet_session
          rw [mark_dm_delivered_sessions]
          unfold Store.save_ratchet_session
          exact lookupAssoc_upsertAssoc _ _ _
  · intro s1 env h
    unfold dm_encrypt_step at h
    cases hsess : s.get_ratchet_session peer with
    | none =>
      rw [hsess] at h
      dsimp only at h
      exact Option.noConfusion h
    | some st =>
      rw [hsess] at h
      dsimp only at h
      cases henc : st.encrypt payload with
      | none =>
        rw [henc] at h
        dsimp only at h
        exact Option.noConfusion h
      | some out =>
        rw [henc] at h
        obtain ⟨st1, header, c⟩ := out
        dsimp only at h
        refine ⟨st, st1, header, c, rfl, henc, ?_⟩
        injection h with h1
        injection h1 with h1 h2
        rw [← h1]
        unfold Store.get_ratchet_session Store.save_ratchet_session
        exact lookupAssoc_upsertAssoc _ _ _

theorem c5_ratchet_persistence_witness :
    Store.get_ratchet_session
        { Store.empty with dm_ratchet_sessions :=
            [("peer", RatchetState.init_bob (Bytes.raw 7) (3, PubKey.pk 3) 10)] }
        ("peer")
      = Store.get_ratchet_session
        { Store.empty with dm_ratchet_sessions :=
            [("peer", RatchetState.init_bob (Bytes.raw 7) (3, PubKey.pk 3) 10)] }
        ("peer") ∧
    (∃ st st1 p,
      Store.get_ratchet_session
          { Store.empty with dm_ratchet_sessions :=
              [("alice", RatchetState.init_bob (Bytes.raw 7) (3, PubKey.pk 3) 10)] }
          ("alice") = some st ∧
      RatchetState.decrypt st
          { dh_public := PubKey.pk 5, message_number := 0, previous_chain_length := 0 }
          { key := Bytes.ckMsg (Bytes.rkChain (Bytes.raw 7) (Bytes.dh 3 5)),
            plaintext := DmPayload.typing }
        = Except.ok (st1, p) ∧
      Store.get_ratchet_session
          (handle_encrypted_message
            { Store.empty with dm_ratchet_sessions :=
                [("alice", RatchetState.init_bob (Bytes.raw 7) (3, PubKey.pk 3) 10)] }
            ("me") ("alice")
            { sender := "alice",
              ratchet_header :=
                { dh_public := PubKey.pk 5, message_number := 0,
                  previous_chain_length := 0 },
              ciphertext :=
                { key := Bytes.ckMsg (Bytes.rkChain (Bytes.raw 7) (Bytes.dh 3 5)),
                  plaintext := DmPayload.typing } }).1
          ("alice") = some st1) ∧
    (∃ st st1 header c,
      Store.get_ratchet_session
          { Store.empty with dm_ratchet_sessions :=
              [("bob", RatchetState.init_alice 5 (Bytes.raw 7) (PubKey.pk 3))] }
          ("bob") = some st ∧
      RatchetState.encrypt st DmPayload.typing = some (st1, header, c) ∧
      Store.get_ratchet_session
          { Store.empty with dm_ratchet_sessions :=
              [("bob",
                { dh_self_private := 5, dh_self_public := PubKey.pk 5,
                  dh_remote_public := some (PubKey.pk 3),
                  root_key := Bytes.rkRoot (Bytes.raw 7) (Bytes.dh 3 5),
                  chain_key_send :=
                    some (Bytes.ckChain (Bytes.rkChain (Bytes.raw 7) (Bytes.dh 3 5))),
                  chain_key_recv := none, send_count := 1, recv_count := 0,
                  prev_send_count := 0, skipped_keys := [], rng := 6 })] }
          ("bob") = some st1) := by
  refine ⟨?_, ?_, ?_⟩
  · exact (c5_ratchet_persistence _ ("me") ("peer") ("peer")
      { sender := "peer",
        ratchet_header :=
          { dh_public := PubKey.pk 5, message_number := 0, previous_chain_length := 0 },
        ciphertext := { key := Bytes.raw 99, plaintext := DmPayload.typing } }
      DmPayload.typing).1 _
      (DmError.decryptFailed CryptoError.decryptionFailed) (by decide)
  · exact (c5_ratchet_persistence _ ("me") ("alice") ("alice")
      { sender := "alice",
        ratchet_header :=
          { dh_public := PubKey.pk 5, message_number := 0, previous_chain_length := 0 },
        ciphertext :=
          { key := Bytes.ckMsg (Bytes.rkChain (Bytes.raw 7) (Bytes.dh 3 5)),
            plaintext := DmPayload.typing } }
      DmPayload.typing).2.1 _ (by decide)
  · exact (c5_ratchet_persistence _ ("me") ("bob") ("bob")
      { sender := "x",
        ratchet_header :=
          { dh_public := PubKey.pk 5, message_number := 0, previous_chain_length := 0 },
        ciphertext := { key := Bytes.raw 99, plaintext := DmPayload.typing } }
      DmPayload.typing).2.2 _
      { sender := "me",
        ratchet_header :=
          { dh_public := PubKey.pk 5, message_number := 0, previous_chain_length := 0 },
        ciphertext :=
          { key := Bytes.ckMsg (Bytes.rkChain (Bytes.raw 7) (Bytes.dh 3 5)),
            plaintext := DmPayload.typing } }
      (by decide)

/-! ## Claim C2: sync mode correctness -/

theorem foldr_max_le_of_mem (l : List Nat) (x : Nat) (hx : x ∈ l) :
    x ≤ l.foldr max 0 := by
  induction l with
  | nil => cases hx
  | cons a tl ih =>
    rcases List.mem_cons.mp hx with hx1 | hx1
    · rw [hx1]
      exact le_max_left _ _
    · exact le_trans (ih hx1) (le_max_right _ _)

theorem timestamp_le_newest (cli : Store) (author : String) (x : Post)
    (hx : x ∈ cli.posts.filter (fun p => decide (p.author = author))) :
    x.timestamp ≤ cli.newest_post_timestamp author := by
  unfold Store.newest_post_timestamp
  exact foldr_max_le_of_mem _ _ (List.mem_map.mpr ⟨x, hx, rfl⟩)

/-- C2: in the Phase-1 summary computed by the sync server from an honestly
computed client request, `UpToDate` is emitted iff the client's post count
and interaction count both equal the server's; and `TimestampCatchUp` is
emitted only when every server post of the author that the client does not
hold lies strictly above the client's newest post timestamp. Hypotheses: the
client's rows for this author are a subset of the server's (the client
obtained them from the server), post ids are unique per store (the posts
table's primary key), and timestamps are positive (the protocol reserves
timestamp 0 for "no posts"). -/
theorem c2_sync_mode_correct (srv cli : Store) (author : String)
    (hsub : ∀ p ∈ cli.posts, p.author = author → p ∈ srv.posts)
    (hndS : ((srv.posts.filter (fun p => decide (p.author = author))).map Post.id).Nodup)
    (hndC : ((cli.posts.filter (fun p => decide (p.author = author))).map Post.id).Nodup)
    (hpos : ∀ p ∈ srv.posts, p.author = author → 0 < p.timestamp) :
    (sync_mode srv (client_sync_request cli author) = SyncMode.upToDate ↔
      cli.count_posts_by_author author = srv.count_posts_by_author author ∧
      cli.count_interactions_by_author author = srv.count_interactions_by_author author) ∧
    (sync_mode srv (client_sync_request cli author) = SyncMode.timestampCatchUp →
      ∀ p ∈ srv.posts, p.author = author → p ∉ cli.posts →
        cli.newest_post_timestamp author < p.timestamp) := by
  constructor
  · unfold sync_mode client_sync_request
    dsimp only
    constructor
    · intro hmode
      by_cases hc : cli.count_posts_by_author author = srv.count_posts_by_author author ∧
          cli.count_interactions_by_author author = srv.count_interactions_by_author author
      · exact hc
      · rw [if_neg hc] at hmode
        split_ifs at hmode <;> exact SyncMode.noConfusion hmode
    · intro hc
      rw [if_pos hc]
  · intro hmode p hp hauth hnot
    unfold sync_mode at hmode
    dsimp only at hmode
    split_ifs at hmode with h1 h2
    obtain ⟨hle, heq⟩ := h2
    by_cases ht : 0 < cli.newest_post_timestamp author
    · -- main counting case
      have hfilter : srv.posts.filter
            (fun q => decide (q.author = author ∧
              cli.newest_post_timestamp author < q.timestamp))
          = (srv.posts.filter (fun q => decide (q.author = author))).filter
            (fun q => decide (cli.newest_post_timestamp author < q.timestamp)) := by
        simp only [Bool.decide_and]
        rw [← List.filter_filter]
        exact List.filter_comm _ _ _
      have hndSA : (srv.posts.filter (fun q => decide (q.author = author))).Nodup :=
        List.Nodup.of_map _ hndS
      have hndCA : (cli.posts.filter (fun q => decide (q.author = author))).Nodup :=
        List.Nodup.of_map _ hndC
      have hndLA : ((srv.posts.filter (fun q => decide (q.author = author))).filter
          (fun q => decide (cli.newest_post_timestamp author < q.timestamp))).Nodup :=
        hndSA.filter _
      have hsubF : (cli.posts.filter (fun q => decide (q.author = author))).toFinset
          ⊆ (srv.posts.filter (fun q => decide (q.author = author))).toFinset := by
        intro x hx
        rw [List.mem_toFinset, List.mem_filter] at hx
        rw [List.mem_toFinset, List.mem_filter]
        exact ⟨hsub x hx.1 (of_decide_eq_true hx.2), hx.2⟩
      have hsubA : ((srv.posts.filter (fun q => decide (q.author = author))).filter
            (fun q => decide (cli.newest_post_timestamp author < q.timestamp))).toFinset
          ⊆ (srv.posts.filter (fun q => decide (q.author = author))).toFinset
            \ (cli.posts.filter (fun q => decide (q.author = author))).toFinset := by
        intro x hx
        rw [List.mem_toFinset, List.mem_filter] at hx
        rw [Finset.mem_sdiff]
        refine ⟨List.mem_toFinset.mpr hx.1, ?_⟩
        intro hxC
        rw [List.mem_toFinset] at hxC
        have h1 : x.timestamp ≤ cli.newest_post_timestamp author :=
          timestamp_le_newest cli author x hxC
        have h2 : cli.newest_post_timestamp author < x.timestamp :=
          of_decide_eq_true hx.2
        omega
      have hcard_sdiff :
          ((srv.posts.filter (fun q => decide (q.author = author))).toFinset
            \ (cli.posts.filter (fun q => decide (q.author = author))).toFinset).card
          = (srv.posts.filter (fun q => decide (q.author = author))).length
            - (cli.posts.filter (fun q => decide (q.author = author))).length := by
        rw [Finset.card_sdiff hsubF, List.toFinset_card_of_nodup hndSA,
          List.toFinset_card_of_nodup hndCA]
      have heqA : ((srv.posts.filter (fun q => decide (q.author = author))).filter
            (fun q => decide (cli.newest_post_timestamp author < q.timestamp))).length
          = (srv.posts.filter (fun q => decide (q.author = author))).length
            - (cli.posts.filter (fun q => decide (q.author = author))).length := by
        dsimp only [client_sync_request] at heq
        unfold posts_after_count at heq
        dsimp only at heq
        rw [if_pos ht] at heq
        unfold Store.count_posts_after Store.count_posts_by_author at heq
        rw [hfilter] at heq
        exact heq.symm
      have hAeq : ((srv.posts.filter (fun q => decide (q.author = author))).filter
            (fun q => decide (cli.newest_post_timestamp author < q.timestamp))).toFinset
          = (srv.posts.filter (fun q => decide (q.author = author))).toFinset
            \ (cli.posts.filter (fun q => decide (q.author = author))).toFinset := by
        refine Finset.eq_of_subset_of_card_le hsubA ?_
        rw [hcard_sdiff, List.toFinset_card_of_nodup hndLA, heqA]
      have hpS : p ∈ (srv.posts.filter (fun q => decide (q.author = author))).toFinset := by
        rw [List.mem_toFinset, List.mem_filter]
        exact ⟨hp, decide_eq_true hauth⟩
      have hpC : p ∉ (cli.posts.filter (fun q => decide (q.author = author))).toFinset := by
        intro hc3
        rw [List.mem_toFinset, List.mem_filter] at hc3
        exact hnot hc3.1
      have hpA : p ∈ ((srv.posts.filter (fun q => decide (q.author = author))).filter
          (fun q => decide (cli.newest_post_timestamp author < q.timestamp))).toFinset := by
        rw [hAeq, Finset.mem_sdiff]
        exact ⟨hpS, hpC⟩
      rw [List.mem_toFinset, List.mem_filter] at hpA
      exact of_decide_eq_true hpA.2
    · have h0 : cli.newest_post_timestamp author = 0 := by omega
      rw [h0]
      exact hpos p hp hauth

theorem c2_sync_mode_correct_witness :
    sync_mode
        { Store.empty with posts :=
            [{ id := "s1", author := "a", content := "x", timestamp := 10,
               media := [], reply_to := none, reply_to_author := none,
               quote_of := none, quote_of_author := none, signature := SigVal.junk 0 },
             { id := "s2", author := "a", content := "y", timestamp := 30,
               media := [], reply_to := none, reply_to_author := none,
               quote_of := none, quote_of_author := none, signature := SigVal.junk 1 }] }
        (client_sync_request
          { Store.empty with posts :=
              [{ id := "s1", author := "a", content := "x", timestamp := 10,
                 media := [], reply_to := none, reply_to_author := none,
                 quote_of := none, quote_of_author := none, signature := SigVal.junk 0 }] }
          ("a"))
      = SyncMode.timestampCatchUp ∧
    Store.newest_post_timestamp
        { Store.empty with posts :=
            [{ id := "s1", author := "a", content := "x", timestamp := 10,
               media := [], reply_to := none, reply_to_author := none,
               quote_of := none, quote_of_author := none, signature := SigVal.junk 0 }] }
        ("a") < 30 := by
  constructor
  · decide
  · exact (c2_sync_mode_correct
      { Store.empty with posts :=
          [{ id := "s1", author := "a", content := "x", timestamp := 10,
             media := [], reply_to := none, reply_to_author := none,
             quote_of := none, quote_of_author := none, signature := SigVal.junk 0 },
           { id := "s2", author := "a", content := "y", timestamp := 30,
             media := [], reply_to := none, reply_to_author := none,
             quote_of := none, quote_of_author := none, signature := SigVal.junk 1 }] }
      { Store.empty with posts :=
          [{ id := "s1", author := "a", content := "x", timestamp := 10,
             media := [], reply_to := none, reply_to_author := none,
             quote_of := none, quote_of_author := none, signature := SigVal.junk 0 }] }
      ("a") (by decide) (by decide) (by decide) (by decide)).2 (by decide)
      { id := "s2", author := "a", content := "y", timestamp := 30,
        media := [], reply_to := none, reply_to_author := none,
        quote_of := none, quote_of_author := none, signature := SigVal.junk 1 }
      (by decide) (by decide) (by decide)

/-! ## Ratchet chain lemmas (for claims C3 and C6) -/

theorem chain_at_add (ck : Bytes) (a b : Nat) :
    chain_at ck (a + b) = chain_at (chain_at ck a) b := by
  induction b with
  | zero => rfl
  | succ b ih => rw [Nat.add_succ, chain_at, chain_at, ih]

theorem chain_at_shift (ck : Bytes) (t : Nat) :
    chain_at (Bytes.ckChain ck) t = chain_at ck (t + 1) := by
  induction t with
  | zero => rfl
  | succ t ih =>
    rw [chain_at, ih]
    rfl

theorem skip_go_spec (pub : PubKey) (fuel : Nat) :
    ∀ (ck : Bytes) (skipped : List SkippedKey) (recv : Nat),
    skip_go pub skipped recv ck fuel
      = (skipped ++ (List.range fuel).map (fun t =>
          { ratchet_public := pub, message_number := recv + t,
            message_key := Bytes.ckMsg (chain_at ck t) }),
         recv + fuel, chain_at ck fuel) := by
  induction fuel with
  | zero =>
    intro ck skipped recv
    simp [skip_go, chain_at]
  | succ fuel ih =>
    intro ck skipped recv
    have hmap : (List.range (fuel + 1)).map (fun t =>
          ({ ratchet_public := pub, message_number := recv + t,
             message_key := Bytes.ckMsg (chain_at ck t) } : SkippedKey))
        = { ratchet_public := pub, message_number := recv,
            message_key := Bytes.ckMsg ck }
          :: (List.range fuel).map (fun t =>
            { ratchet_public := pub, message_number := recv + 1 + t,
              message_key := Bytes.ckMsg (chain_at (Bytes.ckChain ck) t) }) := by
      rw [List.range_succ_eq_map, List.map_cons, List.map_map]
      refine congrArg₂ _ rfl ?_
      refine List.map_congr_left ?_
      intro t ht
      simp only [Function.comp]
      rw [chain_at_shift]
      refine congrArg₂ _ ?_ rfl
      omega
    simp only [skip_go, kdf_ck]
    rw [ih]
    simp only [Prod.mk.injEq]
    refine ⟨?_, ?_, ?_⟩
    · rw [hmap]
      simp [List.append_assoc]
    · omega
    · exact chain_at_shift ck fuel

theorem filter_of_map {α β : Type} (f : α → β) (q : β → Bool) (l : List α) :
    (l.map f).filter q = (l.filter (fun a => q (f a))).map f := by
  induction l with
  | nil => rfl
  | cons a tl ih =>
    by_cases h : q (f a)
    · simp [List.filter, h, ih]
    · simp [List.filter, h, ih]

theorem find_remove_map (A : PubKey) (w m : Nat) (key : Nat → Bytes) (l : List Nat) :
    find_remove
        { dh_public := A, message_number := m, previous_chain_length := w }
        (l.map (fun i =>
          { ratchet_public := A, message_number := i, message_key := key i }))
      = if m ∈ l then
          some ({ ratchet_public := A, message_number := m, message_key := key m },
            (l.erase m).map (fun i =>
              { ratchet_public := A, message_number := i, message_key := key i }))
        else none := by
  induction l with
  | nil => simp [find_remove]
  | cons i rest ih =>
    by_cases him : i = m
    · subst him
      rw [List.map_cons, find_remove]
      simp [List.erase_cons_head]
    · rw [List.map_cons, find_remove]
      rw [if_neg (by simp [him])]
      rw [ih]
      by_cases hm : m ∈ rest
      · rw [if_pos hm, if_pos (by simp [hm, him])]
        rw [List.erase_cons_tail]
        · rfl
        · simp [him]
      · rw [if_neg hm, if_neg (by simp [hm]; exact fun h => absurd h.symm him)]

theorem foldr_max_base (xs : List Nat) (c : Nat) :
    xs.foldr max c = max (xs.foldr max 0) c := by
  induction xs with
  | nil => simp
  | cons a tl ih => simp [List.foldr, ih, Nat.max_assoc]

theorem chain_pos_append (done : List Nat) (m : Nat) :
    chain_pos (done ++ [m]) = max (chain_pos done) (m + 1) := by
  unfold chain_pos
  rw [List.map_append, List.foldr_append]
  simp only [List.map_cons, List.map_nil, List.foldr]
  rw [foldr_max_base]
  omega

theorem mem_lt_chain_pos (done : List Nat) (d : Nat) (hd : d ∈ done) :
    d < chain_pos done := by
  have : d + 1 ≤ (done.map (fun m => m + 1)).foldr max 0 :=
    foldr_max_le_of_mem _ _ (List.mem_map.mpr ⟨d, hd, rfl⟩)
  unfold chain_pos
  omega

theorem range_filter_ne_last (k : Nat) :
    (List.range (k + 1)).filter (fun t => decide (¬t = k)) = List.range k := by
  rw [List.range_succ, List.filter_append]
  have h1 : (List.range k).filter (fun t => decide (¬t = k)) = List.range k := by
    rw [List.filter_eq_self]
    intro t ht
    have := List.mem_range.mp ht
    simp
    omega
  have h2 : ([k].filter (fun t => decide (¬t = k))) = [] := by simp
  rw [h1, h2, List.append_nil]

theorem skipped_cache_erase (done : List Nat) (m : Nat) (hmd : m ∉ done)
    (hlt : m < chain_pos done) :
    ((List.range (chain_pos done)).filter (fun i => decide (i ∉ done))).erase m
      = (List.range (chain_pos (done ++ [m]))).filter
          (fun i => decide (i ∉ done ++ [m])) := by
  have hcp : chain_pos (done ++ [m]) = chain_pos done := by
    rw [chain_pos_append]
    omega
  rw [hcp]
  have hnd : ((List.range (chain_pos done)).filter (fun i => decide (i ∉ done))).Nodup :=
    (List.nodup_range _).filter _
  rw [List.Nodup.erase_eq_filter hnd, List.filter_filter]
  refine List.filter_congr ?_
  intro i hi
  by_cases h1 : i ∈ done <;> by_cases h2 : i = m <;> simp [h1, h2]

theorem range_filter_split (done : List Nat) (m : Nat)
    (hcp : chain_pos done ≤ m) :
    (List.range (m + 1)).filter (fun i => decide (i ∉ done ++ [m]))
      = (List.range (chain_pos done)).filter (fun i => decide (i ∉ done))
        ++ (List.range (m - chain_pos done)).map (fun t => chain_pos done + t) := by
  have hsplit : m + 1 = chain_pos done + (m - chain_pos done + 1) := by omega
  rw [hsplit, List.range_add, List.filter_append]
  refine congrArg₂ _ ?_ ?_
  · refine List.filter_congr ?_
    intro i hi
    have hir := List.mem_range.mp hi
    have hne : ¬i = m := by omega
    by_cases h1 : i ∈ done <;> simp [h1, hne]
  · rw [filter_of_map]
    have heq : (List.range (m - chain_pos done + 1)).filter
          (fun t => decide (chain_pos done + t ∉ done ++ [m]))
        = (List.range (m - chain_pos done + 1)).filter
          (fun t => decide (¬t = m - chain_pos done)) := by
      refine List.filter_congr ?_
      intro t ht
      have hnd : chain_pos done + t ∉ done := by
        intro hc
        have := mem_lt_chain_pos done _ hc
        omega
      have hiff : (chain_pos done + t = m) ↔ (t = m - chain_pos done) := by omega
      simp [List.mem_append, hnd, hiff]
    rw [heq, range_filter_ne_last]

theorem decrypt_step {α : Type} [DecidableEq α] (ss : Bytes) (A B : Nat) (p : Nat → α)
    (done : List Nat) (m : Nat) (st : RatchetState)
    (hinv : bob_receiving_inv ss A B done st)
    (hm : m ∉ done) (hadm : m ≤ chain_pos done + MAX_SKIP) :
    ∃ st1, st.decrypt (alice_message ss A B p m).1 (alice_message ss A B p m).2
        = Except.ok (st1, p m) ∧ bob_receiving_inv ss A B (done ++ [m]) st1 := by
  obtain ⟨h1, h2, h3, h4⟩ := hinv
  by_cases hlt : m < chain_pos done
  · -- the message key is in the skipped cache
    have hcp : chain_pos (done ++ [m]) = chain_pos done := by
      rw [chain_pos_append]
      omega
    have hmem : m ∈ (List.range (chain_pos done)).filter (fun i => decide (i ∉ done)) :=
      List.mem_filter.mpr ⟨List.mem_range.mpr hlt, decide_eq_true hm⟩
    have hfr : find_remove (alice_message ss A B p m).1 st.skipped_keys
        = some ({ ratchet_public := PubKey.pk A, message_number := m,
                  message_key := Bytes.ckMsg (chain_at (chain_start ss A B) m) },
            ((((List.range (chain_pos done)).filter (fun i => decide (i ∉ done))).erase m).map
              (fun i => { ratchet_public := PubKey.pk A, message_number := i,
                          message_key := Bytes.ckMsg (chain_at (chain_start ss A B) i) }))) := by
      rw [h4]
      unfold skipped_cache alice_message
      rw [find_remove_map, if_pos hmem]
    have htry : st.try_skipped_keys (alice_message ss A B p m).1 (alice_message ss A B p m).2
        = Except.ok (some ({ st with skipped_keys :=
            ((((List.range (chain_pos done)).filter (fun i => decide (i ∉ done))).erase m).map
              (fun i => { ratchet_public := PubKey.pk A, message_number := i,
                          message_key := Bytes.ckMsg (chain_at (chain_start ss A B) i) })) }, p m)) := by
      unfold RatchetState.try_skipped_keys
      rw [hfr]
      dsimp only [alice_message]
      unfold decrypt_message
      rw [if_pos rfl]
    refine ⟨{ st with skipped_keys :=
        ((((List.range (chain_pos done)).filter (fun i => decide (i ∉ done))).erase m).map
          (fun i => { ratchet_public := PubKey.pk A, message_number := i,
                      message_key := Bytes.ckMsg (chain_at (chain_start ss A B) i) })) },
      ?_, ?_, ?_, ?_, ?_⟩
    · unfold RatchetState.decrypt
      rw [htry]
    · exact h1
    · rw [hcp]
      exact h2
    · rw [hcp]
      exact h3
    · show _ = skipped_cache ss A B (done ++ [m])
      unfold skipped_cache
      rw [skipped_cache_erase done m hm hlt, hcp]
  · -- the message is ahead of the receiving chain
    have hle : chain_pos done ≤ m := Nat.le_of_not_lt hlt
    have hfr : find_remove (alice_message ss A B p m).1 st.skipped_keys = none := by
      rw [h4]
      unfold skipped_cache alice_message
      rw [find_remove_map, if_neg]
      intro hmem
      have := List.mem_range.mp (List.mem_filter.mp hmem).1
      omega
    have htry : st.try_skipped_keys (alice_message ss A B p m).1
        (alice_message ss A B p m).2 = Except.ok none := by
      unfold RatchetState.try_skipped_keys
      rw [hfr]
    have hne : ¬st.dh_remote_public ≠ some (alice_message ss A B p m).1.dh_public := by
      dsimp only [alice_message]
      rw [h1]
      exact fun hc => hc rfl
    have hskip : st.skip_messages m = Except.ok { st with
        skipped_keys := st.skipped_keys ++ (List.range (m - chain_pos done)).map
          (fun t => { ratchet_public := PubKey.pk A,
                      message_number := chain_pos done + t,
                      message_key := Bytes.ckMsg
                        (chain_at (chain_start ss A B) (chain_pos done + t)) }),
        recv_count := m,
        chain_key_recv := some (chain_at (chain_start ss A B) m) } := by
      unfold RatchetState.skip_messages
      rw [if_neg (by rw [h2]; omega)]
      rw [h3]
      dsimp only
      rw [h1]
      dsimp only [Option.getD]
      rw [h2, skip_go_spec]
      have hr : chain_pos done + (m - chain_pos done) = m := by omega
      have hentries : (List.range (m - chain_pos done)).map (fun t =>
            ({ ratchet_public := PubKey.pk A, message_number := chain_pos done + t,
               message_key := Bytes.ckMsg
                 (chain_at (chain_at (chain_start ss A B) (chain_pos done)) t) } : SkippedKey))
          = (List.range (m - chain_pos done)).map (fun t =>
            ({ ratchet_public := PubKey.pk A, message_number := chain_pos done + t,
               message_key := Bytes.ckMsg
                 (chain_at (chain_start ss A B) (chain_pos done + t)) } : SkippedKey)) := by
        refine List.map_congr_left ?_
        intro t ht
        rw [← chain_at_add]
      rw [hentries, hr, ← chain_at_add, hr]
    refine ⟨{ st with
        skipped_keys := st.skipped_keys ++ (List.range (m - chain_pos done)).map
          (fun t => { ratchet_public := PubKey.pk A,
                      message_number := chain_pos done + t,
                      message_key := Bytes.ckMsg
                        (chain_at (chain_start ss A B) (chain_pos done + t)) }),
        recv_count := m + 1,
        chain_key_recv := some (Bytes.ckChain (chain_at (chain_start ss A B) m)) },
      ?_, ?_, ?_, ?_, ?_⟩
    · unfold RatchetState.decrypt
      rw [htry]
      dsimp only
      rw [if_neg hne]
      dsimp only [alice_message]
      rw [hskip]
      dsimp only [kdf_ck]
      unfold decrypt_message
      rw [if_pos rfl]
    · exact h1
    · show m + 1 = chain_pos (done ++ [m])
      rw [chain_pos_append]
      omega
    · show some (Bytes.ckChain (chain_at (chain_start ss A B) m))
          = some (chain_at (chain_start ss A B) (chain_pos (done ++ [m])))
      rw [chain_pos_append]
      have : max (chain_pos done) (m + 1) = m + 1 := by omega
      rw [this]
      rfl
    · show st.skipped_keys ++ _ = skipped_cache ss A B (done ++ [m])
      rw [h4]
      unfold skipped_cache
      have hcp1 : chain_pos (done ++ [m]) = m + 1 := by
        rw [chain_pos_append]
        omega
      rw [hcp1, range_filter_split done m hle, List.map_append, List.map_map]
      rfl

theorem decrypt_step_error {α : Type} [DecidableEq α] (ss : Bytes) (A B : Nat)
    (p : Nat → α) (done : List Nat) (m : Nat) (st : RatchetState)
    (hinv : bob_receiving_inv ss A B done st)
    (hadm : chain_pos done + MAX_SKIP < m) :
    st.decrypt (alice_message ss A B p m).1 (alice_message ss A B p m).2
      = Except.error CryptoError.tooManySkipped := by
  obtain ⟨h1, h2, h3, h4⟩ := hinv
  have hfr : find_remove (alice_message ss A B p m).1 st.skipped_keys = none := by
    rw [h4]
    unfold skipped_cache alice_message
    rw [find_remove_map, if_neg]
    intro hmem
    have := List.mem_range.mp (List.mem_filter.mp hmem).1
    omega
  have htry : st.try_skipped_keys (alice_message ss A B p m).1
      (alice_message ss A B p m).2 = Except.ok none := by
    unfold RatchetState.try_skipped_keys
    rw [hfr]
  have hne : ¬st.dh_remote_public ≠ some (alice_message ss A B p m).1.dh_public := by
    dsimp only [alice_message]
    rw [h1]
    exact fun hc => hc rfl
  have hskip : st.skip_messages m = Except.error CryptoError.tooManySkipped := by
    unfold RatchetState.skip_messages
    rw [if_pos (by rw [h2]; omega)]
  unfold RatchetState.decrypt
  rw [htry]
  dsimp only
  rw [if_neg hne]
  dsimp only [alice_message]
  rw [hskip]

theorem init_bob_dh_ratchet_inv (ss : Bytes) (A B bob_rng : Nat) :
    bob_receiving_inv ss A B []
      ((RatchetState.init_bob ss (B, PubKey.pk B) bob_rng).dh_ratchet (PubKey.pk A)) := by
  unfold RatchetState.init_bob RatchetState.dh_ratchet generate_x25519_keypair kdf_rk
  refine ⟨rfl, rfl, ?_, rfl⟩
  have hminB : min B A = min A B := Nat.min_comm B A
  have hmaxB : max B A = max A B := Nat.max_comm B A
  show some (Bytes.rkChain ss (x25519_dh B (PubKey.pk A)))
      = some (chain_at (chain_start ss A B) (chain_pos []))
  unfold chain_start x25519_dh
  dsimp only [chain_pos, List.map_nil, List.foldr_nil, chain_at]
  rw [hminB, hmaxB]

theorem init_bob_decrypt_eq {α : Type} [DecidableEq α] (ss : Bytes)
    (A B bob_rng : Nat) (p : Nat → α) (m : Nat) :
    (RatchetState.init_bob ss (B, PubKey.pk B) bob_rng).decrypt
        (alice_message ss A B p m).1 (alice_message ss A B p m).2
      = ((RatchetState.init_bob ss (B, PubKey.pk B) bob_rng).dh_ratchet
          (PubKey.pk A)).decrypt
        (alice_message ss A B p m).1 (alice_message ss A B p m).2 := by
  have htry0 : (RatchetState.init_bob ss (B, PubKey.pk B) bob_rng).try_skipped_keys
      (alice_message ss A B p m).1 (alice_message ss A B p m).2 = Except.ok none := by
    unfold RatchetState.try_skipped_keys RatchetState.init_bob
    dsimp only [find_remove]
  have htryR : ((RatchetState.init_bob ss (B, PubKey.pk B) bob_rng).dh_ratchet
      (PubKey.pk A)).try_skipped_keys
      (alice_message ss A B p m).1 (alice_message ss A B p m).2 = Except.ok none := by
    have hsk :
        ((RatchetState.init_bob ss (B, PubKey.pk B) bob_rng).dh_ratchet
          (PubKey.pk A)).skipped_keys = [] := rfl
    unfold RatchetState.try_skipped_keys
    rw [hsk]
    dsimp only [find_remove]
  have hskip0 : (RatchetState.init_bob ss (B, PubKey.pk B) bob_rng).skip_messages
      ((alice_message ss A B p m).1.previous_chain_length)
      = Except.ok (RatchetState.init_bob ss (B, PubKey.pk B) bob_rng) := by
    unfold RatchetState.skip_messages RatchetState.init_bob
    rw [if_neg (by dsimp only [alice_message]; omega)]
  have hpos0 : (RatchetState.init_bob ss (B, PubKey.pk B) bob_rng).dh_remote_public
      ≠ some (alice_message ss A B p m).1.dh_public := by
    unfold RatchetState.init_bob
    exact fun hc => Option.noConfusion hc
  have hnegR : ¬((RatchetState.init_bob ss (B, PubKey.pk B) bob_rng).dh_ratchet
      (PubKey.pk A)).dh_remote_public ≠ some (alice_message ss A B p m).1.dh_public := by
    dsimp only [alice_message]
    exact fun hc => hc rfl
  conv_lhs => rw [RatchetState.decrypt]
  conv_rhs => rw [RatchetState.decrypt]
  rw [htry0, htryR]
  dsimp only
  rw [if_pos hpos0, if_neg hnegR, hskip0]
  dsimp only [alice_message]

theorem range_filter_notmem_singleton (m : Nat) :
    (List.range (m + 1)).filter (fun i => decide (i ∉ [m])) = List.range m := by
  have h : ∀ i ∈ List.range (m + 1), (decide (i ∉ [m])) = (decide (¬i = m)) := by
    intro i _
    simp
  rw [List.filter_congr h, range_filter_ne_last]

theorem chain_pos_singleton (m : Nat) : chain_pos [m] = m + 1 := by
  simp [chain_pos]

theorem encrypt_all_spec {α : Type} (ss : Bytes) (A B : Nat) (p : Nat → α)
    (n : Nat) : ∀ (k : Nat) (st : RatchetState),
    st.dh_self_public = PubKey.pk A →
    st.chain_key_send = some (chain_at (chain_start ss A B) k) →
    st.send_count = k →
    st.prev_send_count = 0 →
    ∃ stf, encrypt_all st ((List.range' k n).map p)
      = some ((List.range' k n).map (alice_message ss A B p), stf) := by
  induction n with
  | zero =>
    intro k st _ _ _ _
    exact ⟨st, rfl⟩
  | succ n ih =>
    intro k st hpub hck hsend hprev
    have henc : st.encrypt (p k)
        = some ({ st with
                    chain_key_send := some (chain_at (chain_start ss A B) (k + 1)),
                    send_count := k + 1 },
                (alice_message ss A B p k).1, (alice_message ss A B p k).2) := by
      unfold RatchetState.encrypt
      rw [hck]
      dsimp only [kdf_ck, alice_message, encrypt_message]
      rw [hpub, hsend, hprev]
      rfl
    obtain ⟨stf, hf⟩ := ih (k + 1)
      { st with
          chain_key_send := some (chain_at (chain_start ss A B) (k + 1)),
          send_count := k + 1 }
      hpub rfl rfl hprev
    refine ⟨stf, ?_⟩
    show encrypt_all st (p k :: (List.range' (k + 1) n).map p) = _
    unfold encrypt_all
    rw [henc]
    dsimp only
    rw [hf]
    dsimp only
    rfl

theorem decrypt_all_steps {α : Type} [DecidableEq α] (ss : Bytes) (A B : Nat)
    (p : Nat → α) : ∀ (order done : List Nat) (st : RatchetState),
    bob_receiving_inv ss A B done st →
    admissible_go (chain_pos done) order = true →
    (∀ m ∈ order, m ∉ done) →
    order.Nodup →
    ∃ stf, decrypt_all st (order.map (alice_message ss A B p))
      = Except.ok (order.map p, stf)
      ∧ bob_receiving_inv ss A B (done ++ order) stf := by
  intro order
  induction order with
  | nil =>
    intro done st hinv _ _ _
    refine ⟨st, rfl, ?_⟩
    rw [List.append_nil]
    exact hinv
  | cons m rest ih =>
    intro done st hinv hadm hfresh hnd
    rw [admissible_go, Bool.and_eq_true] at hadm
    obtain ⟨ha, hb⟩ := hadm
    obtain ⟨hmr, hndr⟩ := List.nodup_cons.mp hnd
    obtain ⟨st1, hdec, hinv1⟩ := decrypt_step ss A B p done m st hinv
      (hfresh m (List.mem_cons_self m rest)) (of_decide_eq_true ha)
    have hadm1 : admissible_go (chain_pos (done ++ [m])) rest = true := by
      rw [chain_pos_append]
      exact hb
    have hfresh1 : ∀ x ∈ rest, x ∉ done ++ [m] := by
      intro x hx hmem
      rcases List.mem_append.mp hmem with hxd | hxm
      · exact hfresh x (List.mem_cons_of_mem m hx) hxd
      · rw [List.mem_singleton.mp hxm] at hx
        exact hmr hx
    obtain ⟨stf, hrest, hinvf⟩ := ih (done ++ [m]) st1 hinv1 hadm1 hfresh1 hndr
    refine ⟨stf, ?_, ?_⟩
    · show decrypt_all st (alice_message ss A B p m :: rest.map (alice_message ss A B p)) = _
      unfold decrypt_all
      dsimp only [alice_message]
      dsimp only [alice_message] at hdec
      rw [hdec]
      dsimp only
      rw [hrest]
      rfl
    · rw [List.append_assoc] at hinvf
      exact hinvf

theorem decrypt_all_from_init_bob {α : Type} [DecidableEq α] (ss : Bytes)
    (A B bob_rng : Nat) (p : Nat → α) (order : List Nat)
    (hadm : admissible order = true) (hnd : order.Nodup) :
    ∃ stB, decrypt_all (RatchetState.init_bob ss (B, PubKey.pk B) bob_rng)
        (order.map (alice_message ss A B p))
      = Except.ok (order.map p, stB) := by
  cases order with
  | nil => exact ⟨RatchetState.init_bob ss (B, PubKey.pk B) bob_rng, rfl⟩
  | cons m rest =>
    unfold admissible at hadm
    rw [admissible_go, Bool.and_eq_true] at hadm
    obtain ⟨ha, hb⟩ := hadm
    obtain ⟨hmr, hndr⟩ := List.nodup_cons.mp hnd
    obtain ⟨st1, hdec, hinv1⟩ := decrypt_step ss A B p [] m
      ((RatchetState.init_bob ss (B, PubKey.pk B) bob_rng).dh_ratchet (PubKey.pk A))
      (init_bob_dh_ratchet_inv ss A B bob_rng)
      (List.not_mem_nil m)
      (by have := of_decide_eq_true ha; simpa [chain_pos] using this)
    rw [List.nil_append] at hinv1
    have hadm1 : admissible_go (chain_pos [m]) rest = true := by
      rw [chain_pos_singleton]
      have hmax : max 0 (m + 1) = m + 1 := by omega
      rw [hmax] at hb
      exact hb
    have hfresh1 : ∀ x ∈ rest, x ∉ [m] := by
      intro x hx hmem
      rw [List.mem_singleton.mp hmem] at hx
      exact hmr hx
    obtain ⟨stf, hrest, _⟩ := decrypt_all_steps ss A B p rest [m] st1 hinv1 hadm1 hfresh1 hndr
    refine ⟨stf, ?_⟩
    show decrypt_all (RatchetState.init_bob ss (B, PubKey.pk B) bob_rng)
      (alice_message ss A B p m :: rest.map (alice_message ss A B p)) = _
    unfold decrypt_all
    dsimp only [alice_message]
    have hfirst := init_bob_decrypt_eq ss A B bob_rng p m
    dsimp only [alice_message] at hfirst hdec
    rw [hfirst, hdec]
    dsimp only
    rw [hrest]
    rfl

/-- **C3.** Ratchet round-trip, in order and reordered: if Alice
(`RatchetState.init_alice`) encrypts plaintexts `p 0 .. p (n-1)` within her
first sending chain, she emits exactly the messages `alice_message … i`, and
for every delivery order that is a permutation of `0..n-1` staying within the
`MAX_SKIP = 100` window of Bob's evolving receive counter (`admissible`,
which includes in-order delivery), Bob (`RatchetState.init_bob` seeded with
the same shared secret and the matching DH keypair) decrypts every ciphertext
to exactly the corresponding plaintext `p i`. -/
theorem c3_ratchet_roundtrip {α : Type} [DecidableEq α] (ss : Bytes)
    (A B bobRng : Nat) (p : Nat → α) (n : Nat) (order : List Nat)
    (hperm : order.Perm (List.range n)) (hadm : admissible order = true) :
    (∃ stA, encrypt_all (RatchetState.init_alice A ss (PubKey.pk B))
        ((List.range n).map p)
      = some ((List.range n).map (alice_message ss A B p), stA)) ∧
    ∃ stB, decrypt_all (RatchetState.init_bob ss (B, PubKey.pk B) bobRng)
        (order.map (alice_message ss A B p))
      = Except.ok (order.map p, stB) := by
  constructor
  · obtain ⟨stA, hA⟩ := encrypt_all_spec ss A B p n 0
      (RatchetState.init_alice A ss (PubKey.pk B)) rfl rfl rfl rfl
    rw [← List.range_eq_range'] at hA
    exact ⟨stA, hA⟩
  · exact decrypt_all_from_init_bob ss A B bobRng p order hadm
      (hperm.nodup_iff.mpr (List.nodup_range n))

theorem c3_ratchet_roundtrip_witness :
    ([2, 0, 1] : List Nat).Perm (List.range 3) ∧ admissible [2, 0, 1] = true ∧
    ((∃ stA, encrypt_all (RatchetState.init_alice 5 (Bytes.raw 0) (PubKey.pk 7))
        ((List.range 3).map (fun i => i))
      = some ((List.range 3).map (alice_message (Bytes.raw 0) 5 7 (fun i => i)), stA)) ∧
    ∃ stB, decrypt_all (RatchetState.init_bob (Bytes.raw 0) (7, PubKey.pk 7) 9)
        (([2, 0, 1] : List Nat).map (alice_message (Bytes.raw 0) 5 7 (fun i => i)))
      = Except.ok (([2, 0, 1] : List Nat).map (fun i => i), stB)) :=
  ⟨by decide, by decide,
    c3_ratchet_roundtrip (Bytes.raw 0) 5 7 9 (fun i => i) 3 [2, 0, 1]
      (by decide) (by decide)⟩

/-- **C6.** `skip_messages` returns `TooManySkipped` exactly when the target
message number exceeds the receive counter by more than `MAX_SKIP = 100`;
concretely, a fresh responder chain errors on message number `MAX_SKIP + 1`
(an attempt to skip 101 messages), while message number `MAX_SKIP` succeeds,
caches exactly `MAX_SKIP` skipped message keys, and every earlier message
`j < MAX_SKIP` still decrypts afterwards from the cache. -/
theorem c6_skip_window {α : Type} [DecidableEq α] (ss : Bytes)
    (A B bobRng : Nat) (p : Nat → α) :
    (∀ (st : RatchetState) (until_ : Nat),
      st.skip_messages until_ = Except.error CryptoError.tooManySkipped
        ↔ st.recv_count + MAX_SKIP < until_) ∧
    (RatchetState.init_bob ss (B, PubKey.pk B) bobRng).decrypt
        (alice_message ss A B p (MAX_SKIP + 1)).1
        (alice_message ss A B p (MAX_SKIP + 1)).2
      = Except.error CryptoError.tooManySkipped ∧
    ∃ st1, (RatchetState.init_bob ss (B, PubKey.pk B) bobRng).decrypt
        (alice_message ss A B p MAX_SKIP).1 (alice_message ss A B p MAX_SKIP).2
      = Except.ok (st1, p MAX_SKIP)
      ∧ st1.skipped_keys.length = MAX_SKIP
      ∧ ∀ j, j < MAX_SKIP → ∃ st2, st1.decrypt
          (alice_message ss A B p j).1 (alice_message ss A B p j).2
        = Except.ok (st2, p j) := by
  refine ⟨?_, ?_, ?_⟩
  · intro st until_
    constructor
    · intro h
      by_contra hc
      unfold RatchetState.skip_messages at h
      rw [if_neg hc] at h
      cases hck : st.chain_key_recv with
      | none =>
        rw [hck] at h
        exact Except.noConfusion h
      | some ck =>
        rw [hck] at h
        exact Except.noConfusion h
    · intro h
      unfold RatchetState.skip_messages
      rw [if_pos h]
  · rw [init_bob_decrypt_eq ss A B bobRng p (MAX_SKIP + 1)]
    exact decrypt_step_error ss A B p [] (MAX_SKIP + 1)
      ((RatchetState.init_bob ss (B, PubKey.pk B) bobRng).dh_ratchet (PubKey.pk A))
      (init_bob_dh_ratchet_inv ss A B bobRng) (by decide)
  · obtain ⟨st1, hdec, hinv1⟩ := decrypt_step ss A B p [] MAX_SKIP
      ((RatchetState.init_bob ss (B, PubKey.pk B) bobRng).dh_ratchet (PubKey.pk A))
      (init_bob_dh_ratchet_inv ss A B bobRng) (List.not_mem_nil _) (by decide)
    rw [List.nil_append] at hinv1
    refine ⟨st1, ?_, ?_, ?_⟩
    · rw [init_bob_decrypt_eq ss A B bobRng p MAX_SKIP]
      exact hdec
    · obtain ⟨_, _, _, h4⟩ := hinv1
      rw [h4]
      unfold skipped_cache
      rw [List.length_map, chain_pos_singleton, range_filter_notmem_singleton,
        List.length_range]
    · intro j hj
      obtain ⟨st2, hdec2, _⟩ := decrypt_step ss A B p [MAX_SKIP] j st1 hinv1
        (by simp only [List.mem_singleton]; omega)
        (by rw [chain_pos_singleton]; omega)
      exact ⟨st2, hdec2⟩

end IrohSocial
